import Mathlib

set_option maxHeartbeats 1000000
set_option maxRecDepth 8192

/-!
Shallow embedding of the evaluation harness in `src/green/agent.py`
(the AEO benchmark green agent): the tool sandbox (`execute_tool`), the
four-tier scoring engine (`score_tier1_structural` .. `score_documentation`),
the action parser (`parse_tags` plus the fallback extraction in
`evaluate_test_case`) and the evaluation loop (`evaluate_test_case`).

Modelling conventions:
 - Python dicts/lists/JSON values are modelled by the inductive `Json`;
   JSON numbers are modelled as integers (the harness only ever clamps and
   sums them; decimal or exponent literals are modelled as parse failures).
 - Python exceptions that the source catches are modelled by `Except` at
   the exact `try` boundaries of the source; an exception the source does
   not catch is a `.error` result propagating out of the embedded function.
 - The external LLM judge (`litellm.completion`) is an oracle parameter
   `Option String`: `none` models the call raising, `some t` models a reply
   whose message content is `t`.  Judge prompt text is not modelled (the
   oracle does not read it), but type errors Python would raise while
   building the prompt are.
 - The transport (`send_message`) is an oracle `Nat → Reply` giving the
   white agent's reply (or transport failure) at each step.
 - The filesystem is a finite map from absolute paths (component lists) to
   nodes; `Path.resolve` is modelled lexically (no symlinks), matching
   non-strict resolution on a symlink-free tree.
-/

namespace AeoBench

instance {ε α : Type} [DecidableEq ε] [DecidableEq α] :
    DecidableEq (Except ε α) := fun a b =>
  match a, b with
  | .ok x, .ok y =>
    if h : x = y then .isTrue (by rw [h]) else .isFalse (by simp [h])
  | .error x, .error y =>
    if h : x = y then .isTrue (by rw [h]) else .isFalse (by simp [h])
  | .ok _, .error _ => .isFalse (by simp)
  | .error _, .ok _ => .isFalse (by simp)

/-! ## JSON values -/

inductive Json where
  | null : Json
  | bool : Bool → Json
  | num : Int → Json
  | str : String → Json
  | arr : List Json → Json
  | obj : List (String × Json) → Json
deriving Repr

mutual

def jsonDecEq : (a b : Json) → Decidable (a = b)
  | .null, .null => isTrue rfl
  | .null, .bool _ => isFalse (fun h => nomatch h)
  | .null, .num _ => isFalse (fun h => nomatch h)
  | .null, .str _ => isFalse (fun h => nomatch h)
  | .null, .arr _ => isFalse (fun h => nomatch h)
  | .null, .obj _ => isFalse (fun h => nomatch h)
  | .bool _, .null => isFalse (fun h => nomatch h)
  | .bool a, .bool b =>
    match decEq a b with
    | isTrue h => isTrue (h ▸ rfl)
    | isFalse h => isFalse (fun hh => h (Json.bool.inj hh))
  | .bool _, .num _ => isFalse (fun h => nomatch h)
  | .bool _, .str _ => isFalse (fun h => nomatch h)
  | .bool _, .arr _ => isFalse (fun h => nomatch h)
  | .bool _, .obj _ => isFalse (fun h => nomatch h)
  | .num _, .null => isFalse (fun h => nomatch h)
  | .num _, .bool _ => isFalse (fun h => nomatch h)
  | .num a, .num b =>
    match decEq a b with
    | isTrue h => isTrue (h ▸ rfl)
    | isFalse h => isFalse (fun hh => h (Json.num.inj hh))
  | .num _, .str _ => isFalse (fun h => nomatch h)
  | .num _, .arr _ => isFalse (fun h => nomatch h)
  | .num _, .obj _ => isFalse (fun h => nomatch h)
  | .str _, .null => isFalse (fun h => nomatch h)
  | .str _, .bool _ => isFalse (fun h => nomatch h)
  | .str _, .num _ => isFalse (fun h => nomatch h)
  | .str a, .str b =>
    match decEq a b with
    | isTrue h => isTrue (h ▸ rfl)
    | isFalse h => isFalse (fun hh => h (Json.str.inj hh))
  | .str _, .arr _ => isFalse (fun h => nomatch h)
  | .str _, .obj _ => isFalse (fun h => nomatch h)
  | .arr _, .null => isFalse (fun h => nomatch h)
  | .arr _, .bool _ => isFalse (fun h => nomatch h)
  | .arr _, .num _ => isFalse (fun h => nomatch h)
  | .arr _, .str _ => isFalse (fun h => nomatch h)
  | .arr l1, .arr l2 =>
    match jsonDecEqList l1 l2 with
    | isTrue h => isTrue (h ▸ rfl)
    | isFalse h => isFalse (fun hh => h (Json.arr.inj hh))
  | .arr _, .obj _ => isFalse (fun h => nomatch h)
  | .obj _, .null => isFalse (fun h => nomatch h)
  | .obj _, .bool _ => isFalse (fun h => nomatch h)
  | .obj _, .num _ => isFalse (fun h => nomatch h)
  | .obj _, .str _ => isFalse (fun h => nomatch h)
  | .obj _, .arr _ => isFalse (fun h => nomatch h)
  | .obj m1, .obj m2 =>
    match jsonDecEqMembers m1 m2 with
    | isTrue h => isTrue (h ▸ rfl)
    | isFalse h => isFalse (fun hh => h (Json.obj.inj hh))

def jsonDecEqList : (a b : List Json) → Decidable (a = b)
  | [], [] => isTrue rfl
  | [], _ :: _ => isFalse (fun h => nomatch h)
  | _ :: _, [] => isFalse (fun h => nomatch h)
  | x :: xs, y :: ys =>
    match jsonDecEq x y with
    | isFalse h1 => isFalse (fun h => h1 (List.cons.inj h).1)
    | isTrue h1 =>
      match jsonDecEqList xs ys with
      | isTrue h2 => isTrue (h1 ▸ h2 ▸ rfl)
      | isFalse h2 => isFalse (fun h => h2 (List.cons.inj h).2)

def jsonDecEqMembers : (a b : List (String × Json)) → Decidable (a = b)
  | [], [] => isTrue rfl
  | [], _ :: _ => isFalse (fun h => nomatch h)
  | _ :: _, [] => isFalse (fun h => nomatch h)
  | (k1, v1) :: r1, (k2, v2) :: r2 =>
    match decEq k1 k2 with
    | isFalse h1 =>
      isFalse (fun h => h1 (congrArg Prod.fst (List.cons.inj h).1))
    | isTrue h1 =>
      match jsonDecEq v1 v2 with
      | isFalse hv =>
        isFalse (fun h => hv (congrArg Prod.snd (List.cons.inj h).1))
      | isTrue hv =>
        match jsonDecEqMembers r1 r2 with
        | isTrue h2 => isTrue (h1 ▸ hv ▸ h2 ▸ rfl)
        | isFalse h2 => isFalse (fun h => h2 (List.cons.inj h).2)

end

instance : DecidableEq Json := jsonDecEq

/-- Python truthiness of a JSON value (`bool(x)`). -/
def Json.truthy : Json → Bool
  | .null => false
  | .bool b => b
  | .num n => n != 0
  | .str s => s != ""
  | .arr l => !l.isEmpty
  | .obj l => !l.isEmpty

/-- First-match lookup in an association list (keys are unique after
`jsonLoads`, which keeps the last duplicate, as Python dicts do). -/
def lookupKey (kvs : List (String × Json)) (k : String) : Option Json :=
  match kvs with
  | [] => none
  | (k2, v) :: rest => if k2 = k then some v else lookupKey rest k

/-- `d.get(k, default)` on a dict value. -/
def getD (kvs : List (String × Json)) (k : String) (d : Json) : Json :=
  (lookupKey kvs k).getD d

/-- `j.get(k, default)`: raises `AttributeError` when `j` is not a dict. -/
def pyDictGet (j : Json) (k : String) (d : Json) : Except String Json :=
  match j with
  | .obj kvs => .ok (getD kvs k d)
  | _ => .error "AttributeError"

/-- Python `len(x)` for values that support it; `TypeError` otherwise. -/
def pyLen : Json → Except String Int
  | .str s => .ok s.length
  | .arr l => .ok l.length
  | .obj l => .ok l.length
  | _ => .error "TypeError"

/-! ## Character-list string utilities (Python `str` semantics) -/

def listStartsWith : List Char → List Char → Bool
  | _, [] => true
  | [], _ :: _ => false
  | c :: cs, d :: ds => c = d && listStartsWith cs ds

/-- Substring containment (`needle in hay`). -/
def listContainsSub (hay needle : List Char) : Bool :=
  match hay with
  | [] => needle.isEmpty
  | _ :: rest => listStartsWith hay needle || listContainsSub rest needle

def containsSubStr (hay sub : String) : Bool :=
  listContainsSub hay.data sub.data

/-- `s.startswith(pre)`. -/
def strStartsWith (s pre : String) : Bool :=
  listStartsWith s.data pre.data

/-- Lexicographic comparison by code point (Python `str` order). -/
def strLeB : List Char → List Char → Bool
  | [], _ => true
  | _ :: _, [] => false
  | a :: as, b :: bs =>
    if a.toNat < b.toNat then true
    else if b.toNat < a.toNat then false
    else strLeB as bs

/-- Index of the first occurrence of `needle` in `hay` (Python `find` when
it does not return -1). -/
def findSubAux (hay needle : List Char) (i : Nat) : Option Nat :=
  match hay with
  | [] => if needle.isEmpty then some i else none
  | _ :: rest =>
    if listStartsWith hay needle then some i else findSubAux rest needle (i + 1)

def findSubIdx (hay needle : List Char) : Option Nat :=
  findSubAux hay needle 0

/-- Python `hay.find(needle, from)`: index of first occurrence at or after
`from`, as an `Option`. -/
def findFromIdx (hay needle : List Char) (start : Nat) : Option Nat :=
  (findSubAux (hay.drop start) needle 0).map (· + start)

/-- Index of the last occurrence (`rfind` when it does not return -1). -/
def rfindSub (hay needle : List Char) : Option Nat :=
  ((List.range (hay.length + 1)).filter
    (fun i => listStartsWith (hay.drop i) needle)).getLast?

/-- Python slice-index normalisation for `s[a:b]`. -/
def pySliceIdx (n : Nat) (i : Int) : Nat :=
  if i < 0 then (max 0 ((n : Int) + i)).toNat else min i.toNat n

/-- Python `s[a:b]` on a character list (negative `b` counts from the end). -/
def pySliceList (cs : List Char) (a b : Int) : List Char :=
  let a2 := pySliceIdx cs.length a
  let b2 := pySliceIdx cs.length b
  (cs.drop a2).take (b2 - a2)

def pySliceStr (s : String) (a b : Int) : String :=
  String.mk (pySliceList s.data a b)

def isPyWs (c : Char) : Bool :=
  c = ' ' || c = '\t' || c = '\n' || c = '\r' || c = '\x0b' || c = '\x0c'

def stripChars (cs : List Char) : List Char :=
  ((cs.dropWhile isPyWs).reverse.dropWhile isPyWs).reverse

/-- Python `str.strip()` (ASCII whitespace; exotic Unicode spaces are not
modelled). -/
def pyStrip (s : String) : String :=
  String.mk (stripChars s.data)

/-- Python `str.lower()` restricted to ASCII (all scoring keywords are
ASCII). -/
def pyLowerStr (s : String) : String :=
  String.mk (s.data.map Char.toLower)

/-- Python `str(x)` as used in f-strings; container rendering is
abbreviated (only string and scalar names reach it in the harness). -/
def pyStr : Json → String
  | .str s => s
  | .num n => toString n
  | .bool true => "True"
  | .bool false => "False"
  | .null => "None"
  | .arr _ => "[...]"
  | .obj _ => "\x7b...\x7d"

/-! ## `json.loads`

A JSON reader with Python `json` semantics, except that JSON numbers are
modelled as integers: a decimal point or exponent makes the parse fail
(the harness never produces such values itself, and a judge reply using
them is then modelled as a judge-parse failure).  Duplicate object keys
keep the last value, as Python dicts do. -/

def isJsonWs (c : Char) : Bool :=
  c = ' ' || c = '\t' || c = '\n' || c = '\r'

def skipWs (cs : List Char) : List Char := cs.dropWhile isJsonWs

def isDigitCh (c : Char) : Bool := '0' ≤ c && c ≤ '9'

def digitVal (c : Char) : Nat := c.toNat - 48

def hexVal (c : Char) : Option Nat :=
  if '0' ≤ c ∧ c ≤ '9' then some (c.toNat - 48)
  else if 'a' ≤ c ∧ c ≤ 'f' then some (c.toNat - 87)
  else if 'A' ≤ c ∧ c ≤ 'F' then some (c.toNat - 55)
  else none

/-- Body of a JSON string literal, after the opening quote: returns the
decoded characters and the input after the closing quote. -/
def parseStrBody : Nat → List Char → Option (List Char × List Char)
  | 0, _ => none
  | fuel + 1, cs =>
    match cs with
    | [] => none
    | c :: rest =>
      if c = '"' then some ([], rest)
      else if c = '\\' then
        match rest with
        | 'u' :: a :: b :: c2 :: d :: rest1 =>
          (match hexVal a, hexVal b, hexVal c2, hexVal d with
           | some x1, some x2, some x3, some x4 =>
             let n := ((x1 * 16 + x2) * 16 + x3) * 16 + x4
             if n < 0xd800 || 0xdfff < n then
               (parseStrBody fuel rest1).map (fun p => (Char.ofNat n :: p.1, p.2))
             else if n < 0xdc00 then
               match rest1 with
               | '\\' :: 'u' :: a2 :: b2 :: c3 :: d2 :: rest2 =>
                 (match hexVal a2, hexVal b2, hexVal c3, hexVal d2 with
                  | some y1, some y2, some y3, some y4 =>
                    let m := ((y1 * 16 + y2) * 16 + y3) * 16 + y4
                    if 0xdc00 ≤ m ∧ m ≤ 0xdfff then
                      (parseStrBody fuel rest2).map (fun p =>
                        (Char.ofNat (0x10000 + (n - 0xd800) * 0x400 + (m - 0xdc00)) :: p.1, p.2))
                    else none
                  | _, _, _, _ => none)
               | _ => none
             else none
           | _, _, _, _ => none)
        | e :: rest1 =>
          if e = '"' then (parseStrBody fuel rest1).map (fun p => ('"' :: p.1, p.2))
          else if e = '\\' then (parseStrBody fuel rest1).map (fun p => ('\\' :: p.1, p.2))
          else if e = '/' then (parseStrBody fuel rest1).map (fun p => ('/' :: p.1, p.2))
          else if e = 'b' then (parseStrBody fuel rest1).map (fun p => ('\x08' :: p.1, p.2))
          else if e = 'f' then (parseStrBody fuel rest1).map (fun p => ('\x0c' :: p.1, p.2))
          else if e = 'n' then (parseStrBody fuel rest1).map (fun p => ('\n' :: p.1, p.2))
          else if e = 'r' then (parseStrBody fuel rest1).map (fun p => ('\r' :: p.1, p.2))
          else if e = 't' then (parseStrBody fuel rest1).map (fun p => ('\t' :: p.1, p.2))
          else none
        | [] => none
      else if c.toNat < 0x20 then none
      else (parseStrBody fuel rest).map (fun p => (c :: p.1, p.2))

def parseDigitsAux : List Char → Nat → Nat × List Char
  | [], acc => (acc, [])
  | c :: rest, acc =>
    if isDigitCh c then parseDigitsAux rest (acc * 10 + digitVal c)
    else (acc, c :: rest)

/-- Unsigned integer literal; a leading zero is a bare `0` (Python rejects
`01` as a number, which then surfaces as trailing-garbage failure). -/
def parseNatNum : List Char → Option (Nat × List Char)
  | [] => none
  | '0' :: rest => some (0, rest)
  | c :: rest =>
    if isDigitCh c then some (parseDigitsAux rest (digitVal c)) else none

def noFloatTail : List Char → Bool
  | [] => true
  | c :: _ => !(c = '.' || c = 'e' || c = 'E')

def parseNumVal : List Char → Option (Int × List Char)
  | '-' :: rest =>
    (parseNatNum rest).bind fun p =>
      if noFloatTail p.2 then some (-(p.1 : Int), p.2) else none
  | cs =>
    (parseNatNum cs).bind fun p =>
      if noFloatTail p.2 then some ((p.1 : Int), p.2) else none

/-- Replace the value of `k`, or append; models Python dict insertion. -/
def setKey (kvs : List (String × Json)) (k : String) (v : Json) :
    List (String × Json) :=
  match kvs with
  | [] => [(k, v)]
  | (k2, w) :: rest =>
    if k2 = k then (k2, v) :: rest else (k2, w) :: setKey rest k v

mutual

def parseVal : Nat → List Char → Option (Json × List Char)
  | 0, _ => none
  | fuel + 1, cs0 =>
    match skipWs cs0 with
    | 'n' :: 'u' :: 'l' :: 'l' :: rest => some (.null, rest)
    | 't' :: 'r' :: 'u' :: 'e' :: rest => some (.bool true, rest)
    | 'f' :: 'a' :: 'l' :: 's' :: 'e' :: rest => some (.bool false, rest)
    | '"' :: rest => (parseStrBody rest.length rest).map fun p => (.str (String.mk p.1), p.2)
    | '\x7b' :: rest => parseObjBody fuel rest
    | '[' :: rest => parseArrBody fuel rest
    | cs => (parseNumVal cs).map fun p => (.num p.1, p.2)

def parseArrBody : Nat → List Char → Option (Json × List Char)
  | 0, _ => none
  | fuel + 1, cs =>
    match skipWs cs with
    | ']' :: rest => some (.arr [], rest)
    | _ => (parseElems fuel cs).map fun p => (.arr p.1, p.2)

def parseElems : Nat → List Char → Option (List Json × List Char)
  | 0, _ => none
  | fuel + 1, cs =>
    (parseVal fuel cs).bind fun p =>
      match skipWs p.2 with
      | ',' :: rest2 => (parseElems fuel rest2).map fun q => (p.1 :: q.1, q.2)
      | ']' :: rest2 => some ([p.1], rest2)
      | _ => none

def parseObjBody : Nat → List Char → Option (Json × List Char)
  | 0, _ => none
  | fuel + 1, cs =>
    match skipWs cs with
    | '\x7d' :: rest => some (.obj [], rest)
    | _ =>
      (parseMembers fuel cs).map fun p =>
        (.obj (p.1.foldl (fun acc kv => setKey acc kv.1 kv.2) []), p.2)

def parseMembers : Nat → List Char →
    Option (List (String × Json) × List Char)
  | 0, _ => none
  | fuel + 1, cs =>
    match skipWs cs with
    | '"' :: rest =>
      (parseStrBody rest.length rest).bind fun pk =>
        match skipWs pk.2 with
        | ':' :: rest3 =>
          (parseVal fuel rest3).bind fun pv =>
            match skipWs pv.2 with
            | ',' :: rest5 =>
              (parseMembers fuel rest5).map fun q =>
                ((String.mk pk.1, pv.1) :: q.1, q.2)
            | '\x7d' :: rest5 => some ([(String.mk pk.1, pv.1)], rest5)
            | _ => none
        | _ => none
    | _ => none

end

/-- `json.loads`: parse one value, then require only whitespace after it
(otherwise Python raises "Extra data"). -/
def jsonLoads (s : String) : Option Json :=
  match parseVal (3 * s.data.length + 3) s.data with
  | some (v, rest) => if (skipWs rest).isEmpty then some v else none
  | none => none

/-! ## `json.dumps` -/

def hexDigitCh (n : Nat) : Char :=
  if n < 10 then Char.ofNat (48 + n) else Char.ofNat (87 + n)

def hex4 (n : Nat) : List Char :=
  [hexDigitCh (n / 4096 % 16), hexDigitCh (n / 256 % 16),
   hexDigitCh (n / 16 % 16), hexDigitCh (n % 16)]

def uEsc (n : Nat) : List Char := '\\' :: 'u' :: hex4 n

/-- Escaping of one character, `ensure_ascii=True` (Python's default). -/
def escChar (c : Char) : List Char :=
  if c = '"' then ['\\', '"']
  else if c = '\\' then ['\\', '\\']
  else if c = '\n' then ['\\', 'n']
  else if c = '\t' then ['\\', 't']
  else if c = '\r' then ['\\', 'r']
  else if c = '\x08' then ['\\', 'b']
  else if c = '\x0c' then ['\\', 'f']
  else if c.toNat < 0x20 then uEsc c.toNat
  else if c.toNat < 0x80 then [c]
  else if c.toNat < 0x10000 then uEsc c.toNat
  else uEsc (0xd800 + (c.toNat - 0x10000) / 0x400) ++
       uEsc (0xdc00 + (c.toNat - 0x10000) % 0x400)

def escStr (s : String) : List Char :=
  '"' :: s.data.foldr (fun c acc => escChar c ++ acc) ['"']

def natDigitsAux : Nat → Nat → List Char
  | 0, _ => []
  | fuel + 1, n =>
    if n < 10 then [Char.ofNat (48 + n)]
    else natDigitsAux fuel (n / 10) ++ [Char.ofNat (48 + n % 10)]

def natRepr (n : Nat) : List Char := natDigitsAux (n + 1) n

def intRepr (n : Int) : List Char :=
  if n < 0 then '-' :: natRepr n.natAbs else natRepr n.toNat

mutual

def jsonDumpsVal : Json → List Char
  | .null => "null".data
  | .bool true => "true".data
  | .bool false => "false".data
  | .num n => intRepr n
  | .str s => escStr s
  | .arr [] => ['[', ']']
  | .arr (x :: xs) => '[' :: (jsonDumpsVal x ++ jsonDumpsElems xs) ++ [']']
  | .obj [] => ['\x7b', '\x7d']
  | .obj ((k, v) :: rest) =>
    '\x7b' :: (escStr k ++ ':' :: ' ' :: jsonDumpsVal v ++
      jsonDumpsMembers rest) ++ ['\x7d']

def jsonDumpsElems : List Json → List Char
  | [] => []
  | x :: xs => ',' :: ' ' :: jsonDumpsVal x ++ jsonDumpsElems xs

def jsonDumpsMembers : List (String × Json) → List Char
  | [] => []
  | (k, v) :: rest =>
    ',' :: ' ' :: escStr k ++ ':' :: ' ' :: jsonDumpsVal v ++
      jsonDumpsMembers rest

end

/-- `json.dumps(v)` with default separators. -/
def jsonDumps (v : Json) : String := String.mk (jsonDumpsVal v)

def spacesCh (n : Nat) : List Char := List.replicate n ' '

mutual

def dumpInd : Nat → Json → List Char
  | _, .null => ['n', 'u', 'l', 'l']
  | _, .bool true => ['t', 'r', 'u', 'e']
  | _, .bool false => ['f', 'a', 'l', 's', 'e']
  | _, .num n => intRepr n
  | _, .str s => escStr s
  | _, .arr [] => ['[', ']']
  | ind, .arr (x :: xs) =>
    '[' :: '\n' :: spacesCh (ind + 2) ++ dumpInd (ind + 2) x ++
      dumpIndElems (ind + 2) xs ++ '\n' :: spacesCh ind ++ [']']
  | _, .obj [] => ['\x7b', '\x7d']
  | ind, .obj ((k, v) :: rest) =>
    '\x7b' :: '\n' :: spacesCh (ind + 2) ++ escStr k ++ ':' :: ' ' ::
      dumpInd (ind + 2) v ++ dumpIndMembers (ind + 2) rest ++
      '\n' :: spacesCh ind ++ ['\x7d']

def dumpIndElems : Nat → List Json → List Char
  | _, [] => []
  | ind, x :: xs =>
    ',' :: '\n' :: spacesCh ind ++ dumpInd ind x ++ dumpIndElems ind xs

def dumpIndMembers : Nat → List (String × Json) → List Char
  | _, [] => []
  | ind, (k, v) :: rest =>
    ',' :: '\n' :: spacesCh ind ++ escStr k ++ ':' :: ' ' ::
      dumpInd ind v ++ dumpIndMembers ind rest

end

/-- `json.dumps(v, indent=2)`. -/
def jsonDumpsIndent2 (v : Json) : String := String.mk (dumpInd 0 v)

/-! ## `parse_tags`

Model of `re.findall(r"<(.*?)>(.*?)</\1>", s, re.DOTALL)` followed by the
dict comprehension (content stripped, later duplicate tags win).  Both
regex groups are lazy: at each `<`, tag candidates are tried shortest
first, and for each the closing `</tag>` is searched nearest first;
scanning resumes after a match (findall returns non-overlapping
matches). -/

def tagCands : List Char → List (List Char × List Char)
  | [] => []
  | c :: r =>
    (if c = '>' then [(([] : List Char), r)] else []) ++
      (tagCands r).map (fun p => (c :: p.1, p.2))

def findCloseTag (close : List Char) : List Char → Option (List Char × List Char)
  | [] => none
  | c :: r =>
    if listStartsWith (c :: r) close then some ([], (c :: r).drop close.length)
    else (findCloseTag close r).map (fun p => (c :: p.1, p.2))

def firstTagMatch : List (List Char × List Char) →
    Option (List Char × List Char × List Char)
  | [] => none
  | (tag, after) :: rest =>
    match findCloseTag ('<' :: '/' :: tag ++ ['>']) after with
    | some (content, restAfter) => some (tag, content, restAfter)
    | none => firstTagMatch rest

def parseTagsAux : Nat → List Char → List (String × String)
  | 0, _ => []
  | _ + 1, [] => []
  | fuel + 1, c :: r =>
    if c = '<' then
      match firstTagMatch (tagCands r) with
      | some (tag, content, rest) =>
        (String.mk tag, pyStrip (String.mk content)) :: parseTagsAux fuel rest
      | none => parseTagsAux fuel r
    else parseTagsAux fuel r

def parse_tags (s : String) : List (String × String) :=
  parseTagsAux s.data.length s.data

/-- Lookup with Python-dict semantics (later pairs overwrite earlier). -/
def lookupTagLast (tags : List (String × String)) (k : String) :
    Option String :=
  match tags with
  | [] => none
  | (k2, v) :: rest =>
    match lookupTagLast rest k with
    | some r => some r
    | none => if k2 = k then some v else none

/-! ## Data model: `TestCase` and the filesystem -/

structure TestCase where
  name : String
  repo_path : List String
  metadata : List (String × Json)
  ground_truth_readme : Option String
  facts : Option Json
deriving Repr, DecidableEq

inductive FNode where
  | file : String → FNode
  | dir : FNode
deriving Repr, DecidableEq

/-- A filesystem tree as a finite map from absolute paths (component
lists) to nodes. -/
structure FileSys where
  nodes : List (List String × FNode)
deriving Repr, DecidableEq

def splitSlashAux : List Char → List Char → List String
  | [], cur => [String.mk cur.reverse]
  | c :: rest, cur =>
    if c = '/' then String.mk cur.reverse :: splitSlashAux rest []
    else splitSlashAux rest (c :: cur)

/-- Python `p.split("/")` as `pathlib` decomposes the textual path. -/
def splitSlash (p : String) : List String := splitSlashAux p.data []

/-- Lexical path normalisation: drop empty and `.` components, make `..`
pop (staying at `/` when already there) — `Path.resolve()` on a
symlink-free tree. -/
def normStack (acc : List String) : List String → List String
  | [] => acc.reverse
  | c :: rest =>
    if c = "" || c = "." then normStack acc rest
    else if c = ".." then normStack acc.tail rest
    else normStack (c :: acc) rest

def resolveAbs (comps : List String) : List String := normStack [] comps

/-- `(repo_path / p).resolve()`: an absolute `p` replaces the root, as
`pathlib`'s `/` does. -/
def resolveJoin (root : List String) (p : String) : List String :=
  if strStartsWith p "/" then resolveAbs (splitSlash p)
  else resolveAbs (root ++ splitSlash p)

def joinComps : List String → String
  | [] => ""
  | [c] => c
  | c :: rest => c ++ "/" ++ joinComps rest

def pathStr (comps : List String) : String :=
  "/" ++ joinComps comps

def lookupNode (fs : FileSys) (p : List String) : Option FNode :=
  (fs.nodes.find? (fun e => decide (e.1 = p))).map (·.2)

def childEntry (target : List String) (e : List String × FNode) :
    Option (String × Bool) :=
  if e.1.take target.length = target then
    match e.1.drop target.length with
    | [n] => some (n, match e.2 with | .dir => true | .file _ => false)
    | _ => none
  else none

def childrenOf (fs : FileSys) (target : List String) : List (String × Bool) :=
  fs.nodes.filterMap (childEntry target)

/-- Root-entry order used by `sortEntries` (Python sorts `Path`s, which
compares the underlying strings; within one directory that is entry-name
order). -/
def entryLe (a b : String × Bool) : Prop := strLeB a.1.data b.1.data = true

instance : DecidableRel entryLe := fun a b =>
  instDecidableEqBool (strLeB a.1.data b.1.data) true

instance : IsTotal (String × Bool) entryLe := ⟨by
  intro a b
  suffices H : ∀ x y : List Char, strLeB x y = true ∨ strLeB y x = true from
    H a.1.data b.1.data
  intro x
  induction x with
  | nil => intro y; left; rfl
  | cons c cs ih =>
    intro y
    cases y with
    | nil => right; rfl
    | cons d ds =>
      by_cases h1 : c.toNat < d.toNat
      · left; simp [strLeB, h1]
      · by_cases h2 : d.toNat < c.toNat
        · right; simp [strLeB, h1, h2]
        · rcases ih ds with h | h
          · left; simp [strLeB, h1, h2, h]
          · right; simp [strLeB, h1, h2, h]⟩

instance : IsTrans (String × Bool) entryLe := ⟨by
  intro a b c
  have hchar : ∀ (cc dd : Char) (u v : List Char),
      strLeB (cc :: u) (dd :: v) = true ↔
        (cc.toNat < dd.toNat ∨ (cc.toNat = dd.toNat ∧ strLeB u v = true)) := by
    intro cc dd u v
    simp only [strLeB]
    by_cases h1 : cc.toNat < dd.toNat
    · simp [h1]
    · by_cases h2 : dd.toNat < cc.toNat
      · simp [h1, h2]
        omega
      · simp [h1, h2]
        intro h
        omega
  suffices H : ∀ x y z : List Char, strLeB x y = true → strLeB y z = true →
      strLeB x z = true from H a.1.data b.1.data c.1.data
  intro x
  induction x with
  | nil => intro y z h1 h2; rfl
  | cons cx xs ih =>
    intro y z h1 h2
    cases y with
    | nil => simp [strLeB] at h1
    | cons cy ys =>
      cases z with
      | nil => simp [strLeB] at h2
      | cons cz zs =>
        rw [hchar] at h1 h2 ⊢
        rcases h1 with h1 | ⟨e1, h1⟩ <;> rcases h2 with h2 | ⟨e2, h2⟩
        · exact Or.inl (by omega)
        · exact Or.inl (by omega)
        · exact Or.inl (by omega)
        · exact Or.inr ⟨by omega, ih ys zs h1 h2⟩⟩

/-- `sorted(target_path.iterdir())`: paths in one directory share their
parent prefix, so path order is entry-name order. -/
def sortEntries (l : List (String × Bool)) : List (String × Bool) :=
  l.insertionSort entryLe

/-! ## Tool Sandbox: `execute_tool` -/

/-- `execute_tool(tool_name, args, test_case)`.  The tool name and the
argument dict come from agent-controlled JSON, so both are `Json`;
a `.error` result models an exception the source does not catch
(e.g. `args.get` on a non-dict, or `repo_path / path` on a non-string). -/
def executeTool (toolName : Json) (args : Json) (tc : TestCase)
    (fs : FileSys) : Except String String :=
  if toolName = Json.str "list_directory" then
    match pyDictGet args "path" (.str ".") with
    | .error e => .error e
    | .ok pathJ =>
      match pathJ with
      | .str p =>
        let rootRes := resolveAbs tc.repo_path
        let target := resolveJoin tc.repo_path p
        if ¬ strStartsWith (pathStr target) (pathStr rootRes) then
          .ok "Error: Cannot access paths outside the repository"
        else
          match lookupNode fs target with
          | none => .ok ("Error: Path does not exist: " ++ p)
          | some (.file _) => .ok ("Error: Path is not a directory: " ++ p)
          | some .dir =>
            let entries := sortEntries (childrenOf fs target)
            let items := entries.filterMap (fun e =>
              if strStartsWith e.1 "." || e.1 = "ground_truth" then none
              else some (e.1 ++ (if e.2 then "/" else "")))
            .ok (jsonDumpsIndent2 (.arr (items.map .str)))
      | _ => .error "TypeError"
  else if toolName = Json.str "read_file" then
    match pyDictGet args "path" (.str "") with
    | .error e => .error e
    | .ok pathJ =>
      if ¬ pathJ.truthy then .ok "Error: \x27path\x27 parameter is required"
      else
        match pathJ with
        | .str p =>
          let rootRes := resolveAbs tc.repo_path
          let target := resolveJoin tc.repo_path p
          let tstr := pathStr target
          if ¬ strStartsWith tstr (pathStr rootRes) then
            .ok "Error: Cannot access paths outside the repository"
          else if containsSubStr tstr "ground_truth" then
            .ok "Error: Cannot access ground truth files"
          else
            match lookupNode fs target with
            | none => .ok ("Error: File does not exist: " ++ p)
            | some .dir => .ok ("Error: Path is not a file: " ++ p)
            | some (.file content) => .ok content
        | _ => .error "TypeError"
  else
    .ok ("Error: Unknown tool \x27" ++ pyStr toolName ++ "\x27")

/-! ## Scoring Engine -/

structure Tier1Detail where
  valid_json : Bool
  has_readme : Bool
  readme_length : Int
  valid_metadata : Bool
deriving Repr, DecidableEq

/-- `detect_sections` result; `exampleSec` models the `example` key. -/
structure Sections where
  installation : Bool
  usage : Bool
  exampleSec : Bool
deriving Repr, DecidableEq

inductive Tier3Detail where
  | noFacts : Tier3Detail
  | err : String → Tier3Detail
  | judged : Int → Int → Int → Json → Tier3Detail
deriving Repr, DecidableEq

inductive Tier4Detail where
  | err : String → Tier4Detail
  | judged : Int → Int → Int → Json → Tier4Detail
deriving Repr, DecidableEq

structure ScoreResult where
  tier1_structural : Int
  tier2_sections : Int
  tier3_accuracy : Int
  tier4_quality : Int
  total_score : Int
  max_score : Int
  parse_error : Bool
  tier1_details : Tier1Detail
  tier2_details : Option Sections
  tier3_details : Option Tier3Detail
  tier4_details : Option Tier4Detail
deriving Repr, DecidableEq

def SECTION_KEYWORDS_installation : List String :=
  ["install", "pip", "requirements", "setup", "prerequisite", "dependencies"]

def SECTION_KEYWORDS_usage : List String :=
  ["usage", "how to run", "run", "execute", "command", "python", "cli"]

def SECTION_KEYWORDS_example : List String :=
  ["example", "output", "demo", "sample", "```"]

/-- `detect_sections(readme)`: `readme.lower()` raises on a non-string. -/
def detect_sections (readme : Json) : Except String Sections :=
  match readme with
  | .str s =>
    let lower := pyLowerStr s
    .ok ⟨SECTION_KEYWORDS_installation.any (fun kw => containsSubStr lower kw),
         SECTION_KEYWORDS_usage.any (fun kw => containsSubStr lower kw),
         SECTION_KEYWORDS_example.any (fun kw => containsSubStr lower kw)⟩
  | _ => .error "AttributeError"

def score_tier1_structural (parsed : Option Json) :
    Except String (Int × Tier1Detail) :=
  match parsed with
  | none => .ok (0, ⟨false, false, 0, false⟩)
  | some (.obj kvs) =>
    let readme := getD kvs "readme" (.str "")
    (if readme.truthy then
        (pyLen readme).map (fun l => (decide (l > 100), l))
      else Except.ok (false, (0 : Int))).bind fun hr =>
      match getD kvs "metadata" (.obj []) with
      | .obj m =>
        let hasCtx := decide (getD m "@context" .null = Json.str "https://schema.org")
        let hasType := (getD m "@type" .null).truthy
        let hasName := (getD m "name" .null).truthy
        let validMeta := hasCtx && hasType && hasName
        .ok (5 + (if hr.1 then 5 else 0) + (if validMeta then 5 else 0),
             ⟨true, hr.1, hr.2, validMeta⟩)
      | _ => .error "AttributeError"
  | some _ => .error "AttributeError"

def score_tier2_sections (readme : Json) : Except String (Int × Sections) :=
  (detect_sections readme).map fun secs =>
    ((if secs.installation then 8 else 0) + (if secs.usage then 9 else 0) +
       (if secs.exampleSec then 8 else 0), secs)

/-- `min(mx, max(0, v))`: Python bools are ints; any other type raises
`TypeError` inside the tier's `try`. -/
def clampSub (mx : Int) (v : Json) : Except String Int :=
  match v with
  | .num n => .ok (min mx (max 0 n))
  | .bool b => .ok (min mx (max 0 (if b then (1 : Int) else 0)))
  | _ => .error "TypeError"

/-- Code-fence stripping applied to judge replies in Tiers 3/4 (the
`elif` branch uses `rfind`). -/
def stripFencesJudge (t : String) : String :=
  if containsSubStr t "```json" then
    let start := (findSubIdx t.data "```json".data).getD 0 + 7
    let stop : Int :=
      match findFromIdx t.data "```".data start with
      | some e => (e : Int)
      | none => -1
    pyStrip (pySliceStr t (start : Int) stop)
  else if strStartsWith t "```" then
    let rf := (rfindSub t.data "```".data).getD 0
    pyStrip (pySliceStr t 3 (rf : Int))
  else t

/-- Code-fence stripping applied to the submission in
`score_documentation` (the `elif` branch uses a forward `find`). -/
def stripFencesResponse (t : String) : String :=
  if containsSubStr t "```json" then
    let start := (findSubIdx t.data "```json".data).getD 0 + 7
    let stop : Int :=
      match findFromIdx t.data "```".data start with
      | some e => (e : Int)
      | none => -1
    pyStrip (pySliceStr t (start : Int) stop)
  else if strStartsWith t "```" then
    let start := (findSubIdx t.data "```".data).getD 0 + 3
    let stop : Int :=
      match findFromIdx t.data "```".data start with
      | some e => (e : Int)
      | none => -1
    pyStrip (pySliceStr t (start : Int) stop)
  else t

/-- `readme[:2000]` in the judge prompts: slicing works on strings and
lists, raises `TypeError` otherwise. -/
def promptSliceOk (readme : Json) : Except String Unit :=
  match readme with
  | .str _ => .ok ()
  | .arr _ => .ok ()
  | _ => .error "TypeError"

/-- The body of `score_tier3_accuracy`'s `try` block (prompt build, judge
call, reply parse, clamping); `.error` is what the `except` catches. -/
def tier3Try (readme _metadata : Json) (facts : Json)
    (judge : Option String) : Except String (Int × Tier3Detail) :=
  (promptSliceOk readme).bind fun _ =>
  (match facts with
   | .obj _ => Except.ok ()
   | _ => Except.error "AttributeError").bind fun _ =>
  match judge with
  | none => .error "judge call raised"
  | some t =>
    match jsonLoads (stripFencesJudge (pyStrip t)) with
    | none => .error "JSONDecodeError"
    | some (.obj kvs) =>
      (clampSub 12 (getD kvs "purpose" (.num 0))).bind fun p =>
      (clampSub 10 (getD kvs "dependencies" (.num 0))).bind fun dep =>
      (clampSub 8 (getD kvs "run_command" (.num 0))).map fun cmd =>
        (p + dep + cmd, .judged p dep cmd (getD kvs "reasoning" (.str "")))
    | some _ => .error "AttributeError"

def score_tier3_accuracy (readme metadata : Json) (facts : Option Json)
    (judge : Option String) : Int × Tier3Detail :=
  match facts with
  | none => (15, .noFacts)
  | some f =>
    if f.truthy then
      match tier3Try readme metadata f judge with
      | .ok r => r
      | .error e => (0, .err e)
    else (15, .noFacts)

/-- The body of `score_tier4_quality`'s `try` block. -/
def tier4Try (readme : Json) (_gt : Option String)
    (judge : Option String) : Except String (Int × Tier4Detail) :=
  (promptSliceOk readme).bind fun _ =>
  match judge with
  | none => .error "judge call raised"
  | some t =>
    match jsonLoads (stripFencesJudge (pyStrip t)) with
    | none => .error "JSONDecodeError"
    | some (.obj kvs) =>
      (clampSub 12 (getD kvs "clarity" (.num 0))).bind fun cl =>
      (clampSub 10 (getD kvs "completeness" (.num 0))).bind fun co =>
      (clampSub 8 (getD kvs "formatting" (.num 0))).map fun fo =>
        (cl + co + fo, .judged cl co fo (getD kvs "feedback" (.str "")))
    | some _ => .error "AttributeError"

def score_tier4_quality (readme _metadata : Json) (gt : Option String)
    (judge : Option String) : Int × Tier4Detail :=
  match tier4Try readme gt judge with
  | .ok r => r
  | .error e => (0, .err e)

/-- `test_case.facts if test_case else None`. -/
def tcFacts : Option TestCase → Option Json
  | some tc => tc.facts
  | none => none

/-- `test_case.ground_truth_readme if test_case else None`. -/
def tcGt : Option TestCase → Option String
  | some tc => tc.ground_truth_readme
  | none => none

/-- Tiers 2–4 of `score_documentation`, run only when `parsed_data` is
truthy; each tier's score/detail stays `(0, none)` when the readme is
falsy, exactly as the three `if readme:` guards do. -/
def tiersRest (d : Json) (tcOpt : Option TestCase) (j3 j4 : Option String) :
    Except String ((Int × Option Sections) × (Int × Option Tier3Detail) ×
      (Int × Option Tier4Detail)) :=
  match d with
  | .obj kvs =>
    let readme := getD kvs "readme" (.str "")
    let metadata := getD kvs "metadata" (.obj [])
    if readme.truthy then
      (score_tier2_sections readme).map fun t2 =>
        let t3 := score_tier3_accuracy readme metadata (tcFacts tcOpt) j3
        let t4 := score_tier4_quality readme metadata (tcGt tcOpt) j4
        ((t2.1, some t2.2), (t3.1, some t3.2), (t4.1, some t4.2))
    else .ok ((0, none), (0, none), (0, none))
  | _ => .error "AttributeError"

/-- A parsed JSON `null` is the Python object `None`, indistinguishable
from the `parsed_data = None` of a parse failure everywhere except the
`parse_error` detail. -/
def nullToNone : Option Json → Option Json
  | some .null => none
  | x => x

/-- `score_documentation(response, test_case)`, with the two judge calls
as oracles. -/
def score_documentation (resp : String) (tcOpt : Option TestCase)
    (j3 j4 : Option String) : Except String ScoreResult :=
  let text := stripFencesResponse (pyStrip resp)
  let parsedRaw := jsonLoads text
  let parsedData : Option Json := nullToNone parsedRaw
  match score_tier1_structural parsedData with
  | .error e => .error e
  | .ok t1 =>
    match parsedData with
    | some d =>
      if d.truthy then
        match tiersRest d tcOpt j3 j4 with
        | .error e => .error e
        | .ok r =>
          .ok ⟨t1.1, r.1.1, r.2.1.1, r.2.2.1,
               t1.1 + r.1.1 + r.2.1.1 + r.2.2.1, 100,
               parsedRaw.isNone, t1.2, r.1.2, r.2.1.2, r.2.2.2⟩
      else
        .ok ⟨t1.1, 0, 0, 0, t1.1 + 0 + 0 + 0, 100,
             parsedRaw.isNone, t1.2, none, none, none⟩
    | none =>
      .ok ⟨t1.1, 0, 0, 0, t1.1 + 0 + 0 + 0, 100,
           parsedRaw.isNone, t1.2, none, none, none⟩

/-! ## Evaluation Loop: `evaluate_test_case` -/

def RESPOND_ACTION_NAME : String := "respond"

/-- One white-agent exchange as seen by the orchestrator: a text reply,
or one of the transport/shape failures `evaluate_test_case`
distinguishes. -/
inductive Reply where
  | ok : String → Reply
  | timeoutErr : Reply
  | commErr : String → Reply
  | badResponse : Reply
  | badResult : Reply
  | noText : Reply

/-- One per-case result record; fields the Python dict omits are `none`.
On a scored submission the record carries the `ScoreResult` (Python
splices it with `**score_result`). -/
structure EvalRecord where
  test_case : String
  error : Option String
  steps_taken : Option Nat
  score : Option ScoreResult
  total_score : Int
  max_score : Int
deriving Repr, DecidableEq

def failRecord (tc : TestCase) (msg : String) (steps : Option Nat) :
    EvalRecord :=
  ⟨tc.name, some msg, steps, none, 0, 100⟩

/-- Extraction of the action JSON text from a reply: the `<json>` tag via
`parse_tags`, else the first `\x7b` to the last `\x7d`, else nothing. -/
def extractActionJson (text : String) : Option String :=
  match lookupTagLast (parse_tags text) "json" with
  | some s => some s
  | none =>
    if text.data.contains '\x7b' then
      let js := (findSubIdx text.data ['\x7b']).getD 0
      let je : Int :=
        match rfindSub text.data ['\x7d'] with
        | some e => (e : Int)
        | none => -1
      some (pySliceStr text (js : Int) (je + 1))
    else none

/-- Classification of one reply text by the action-parsing block:
no action text at all, JSON decode failure (caught), an uncaught
exception (`.get` on a non-dict), or a decoded action. -/
inductive TurnDecode where
  | noAction : TurnDecode
  | parseFail : TurnDecode
  | crash : String → TurnDecode
  | act : Json → Json → TurnDecode
deriving Repr, DecidableEq

def decodeActionJson (s : String) : TurnDecode :=
  match jsonLoads s with
  | none => .parseFail
  | some (.obj kvs) =>
    .act (getD kvs "name" (.str "")) (getD kvs "kwargs" (.obj []))
  | some _ => .crash "AttributeError"

def decodeTurn (text : String) : TurnDecode :=
  match extractActionJson text with
  | none => .noAction
  | some s => decodeActionJson s

/-- The orchestrator's re-serialisation of a submission before scoring:
`json.dumps({"readme": kwargs.get("readme", ""),
"metadata": kwargs.get("metadata", {})})`. -/
def buildFinalResponse (kwargs : List (String × Json)) : String :=
  jsonDumps (.obj [("readme", getD kwargs "readme" (.str "")),
                   ("metadata", getD kwargs "metadata" (.obj []))])

def toolMsg (name : Json) (result : String) : String :=
  "Tool call result for \x27" ++ pyStr name ++ "\x27:\n" ++ result ++
    "\n\nContinue exploring or submit your final documentation when ready."

def TOOLS_INFO : Json := .arr
  [.obj [("name", .str "list_directory"),
         ("description", .str "List files and directories at the given path within the repository"),
         ("parameters", .obj [("path", .str "string - relative path within repo (default: root, use \x27.\x27)")])],
   .obj [("name", .str "read_file"),
         ("description", .str "Read the contents of a file within the repository"),
         ("parameters", .obj [("path", .str "string - relative path to file within repo")])]]

/-- The opening task message (content is inert for the properties below
but kept faithful to the f-string). -/
def task_description (tc : TestCase) : String :=
  "You are tasked with generating documentation for a code repository.\n\n" ++
  "PROJECT: " ++ pyStr (getD tc.metadata "name" (.str tc.name)) ++ "\n" ++
  "DESCRIPTION: " ++ pyStr (getD tc.metadata "description" (.str "N/A")) ++ "\n\n" ++
  "You have access to the following tools to explore the repository:\n" ++
  jsonDumpsIndent2 TOOLS_INFO ++ "\n\n" ++
  "To use a tool, respond with JSON wrapped in <json>...</json> tags:\n" ++
  "<json>\n\x7b\"name\": \"<tool_name>\", \"kwargs\": \x7b\"param\": \"value\"\x7d\x7d\n</json>\n\n" ++
  "When you\x27re ready to submit your final documentation, use the \"" ++
  RESPOND_ACTION_NAME ++ "\" action:\n" ++
  "<json>\n\x7b\"name\": \"" ++ RESPOND_ACTION_NAME ++ "\", \"kwargs\": \x7b\n" ++
  "    \"readme\": \"Your generated README in markdown format\",\n" ++
  "    \"metadata\": \x7b\n        \"@context\": \"https://schema.org\",\n" ++
  "        \"@type\": \"SoftwareSourceCode\",\n        \"name\": \"...\",\n" ++
  "        \"description\": \"...\",\n        \"programmingLanguage\": \"...\"\n" ++
  "    \x7d\n\x7d\x7d\n</json>\n\n" ++
  "Start by exploring the repository structure, then read relevant files to understand the code.\n" ++
  "Generate comprehensive documentation that would help users understand and use this project.\n\n" ++
  "Begin by listing the directory contents.\n"

/-- The `for step in range(max_steps)` loop of `evaluate_test_case`.
`fuel` is the number of steps left, `step` the 0-based index, `msg` the
next outbound message (`next_message`).  `.error` models an exception
escaping `evaluate_test_case` (caught only by the run aggregator). -/
def evalGo (tc : TestCase) (fs : FileSys) (j3 j4 : Option String)
    (oracle : Nat → Reply) (maxSteps : Nat) :
    Nat → Nat → String → Except String EvalRecord
  | 0, _, _ =>
    .ok ⟨tc.name, some "Max steps reached without final documentation",
         some maxSteps, none, 0, 100⟩
  | fuel + 1, step, _msg =>
    match oracle step with
    | .timeoutErr =>
      .ok (failRecord tc ("Timeout on step " ++ toString (step + 1))
        (some (step + 1)))
    | .commErr e =>
      .ok (failRecord tc ("Communication error: " ++
        String.mk (e.data.take 100)) (some (step + 1)))
    | .badResponse => .ok (failRecord tc "Unexpected response from white agent" none)
    | .badResult => .ok (failRecord tc "Unexpected result from white agent" none)
    | .noText => .ok (failRecord tc "Empty response from white agent" none)
    | .ok text =>
      match decodeTurn text with
      | .noAction => .ok (failRecord tc "Could not parse action from response" none)
      | .parseFail => .ok (failRecord tc "Could not parse action: invalid JSON" none)
      | .crash e => .error e
      | .act name kwargs =>
        if name = Json.str RESPOND_ACTION_NAME then
          match kwargs with
          | .obj kvs =>
            match score_documentation (buildFinalResponse kvs) (some tc) j3 j4 with
            | .error e => .error e
            | .ok sr =>
              .ok ⟨tc.name, none, some (step + 1), some sr,
                   sr.total_score, sr.max_score⟩
          | _ => .error "AttributeError"
        else
          match executeTool name kwargs tc fs with
          | .error e => .error e
          | .ok toolResult =>
            evalGo tc fs j3 j4 oracle maxSteps fuel (step + 1)
              (toolMsg name toolResult)

/-- `evaluate_test_case(white_agent_url, test_case, max_steps)` (the
Python default for `max_steps` is 15). -/
def evaluate_test_case (tc : TestCase) (fs : FileSys) (j3 j4 : Option String)
    (oracle : Nat → Reply) (maxSteps : Nat) : Except String EvalRecord :=
  evalGo tc fs j3 j4 oracle maxSteps maxSteps 0 (task_description tc)

/-! ## Concrete inputs used by the witnesses and counterexamples -/

def c1wResp : String :=
  "\x7b\"readme\": \"Install with pip install foo. Usage: run python main.py to execute. Example output: see the demo below, sample provided.\", \"metadata\": \x7b\"@context\": \"https://schema.org\", \"@type\": \"SoftwareSourceCode\", \"name\": \"Foo\"\x7d\x7d"

def c1wTc : TestCase :=
  ⟨"t2", ["tr", "repo"], [], some "GT", some (.obj [("main_purpose", .str "x")])⟩

def c1wJ3 : Option String :=
  some "\x7b\"purpose\": 20, \"dependencies\": -4, \"run_command\": 3\x7d"

def c1wJ4 : Option String := some "garbage"

def c1wRC : ScoreResult :=
  ⟨15, 25, 15, 0, 55, 100, false, ⟨true, true, 120, true⟩,
   some ⟨true, true, true⟩, some (.judged 12 0 3 (.str "")),
   some (.err "JSONDecodeError")⟩

def s100 : String := String.mk (List.replicate 100 'a')

def s101 : String := String.mk (List.replicate 101 'a')

/-! ## Concrete fixtures for the sandbox claims -/

def c4Tc : TestCase := ⟨"t", ["tr", "repo"], [], none, none⟩

/-- A repository root `/tr/repo` with a sibling directory `/tr/repo2`
whose name extends the root's name textually. -/
def c4Fs : FileSys := ⟨[
  (["tr", "repo"], .dir),
  (["tr", "repo", "main.py"], .file "print(1)"),
  (["tr", "repo2"], .dir),
  (["tr", "repo2", "sec.txt"], .file "SECRET")]⟩

def c5Tc : TestCase := ⟨"t", ["tr", "repo"], [], none, none⟩

def c5Fs : FileSys := ⟨[
  (["tr", "repo"], .dir),
  (["tr", "repo", "main.py"], .file "print(1)"),
  (["tr", "repo", "ground_truth"], .dir),
  (["tr", "repo", "ground_truth", "README.md"], .file "GT README"),
  (["tr", "repo", "ground_truth", "facts.json"], .file "\x7b\x7d")]⟩

def c8Tc : TestCase := ⟨"t", ["tr", "repo"], [], none, none⟩

/-- A directory holding a subdirectory `a` and a file `a!`: sorted by
entry name, `a` comes first, but with the `/` suffix appended the output
array is no longer lexicographically sorted (`/` is 0x2f > `!` 0x21). -/
def c8Fs : FileSys := ⟨[
  (["tr", "repo"], .dir),
  (["tr", "repo", "a"], .dir),
  (["tr", "repo", "a!"], .file "x"),
  (["tr", "repo", ".hidden"], .file "h"),
  (["tr", "repo", "ground_truth"], .dir)]⟩

/-! ## Well-formed JSON values

`jsonWf` carves out values whose strings are printable ASCII and whose
object keys are duplicate-free: on these, `jsonLoads` inverts
`jsonDumps` (proved below), which is what the orchestrator's
re-serialisation of a submission relies on. -/

def wfChar (c : Char) : Bool := 0x20 ≤ c.toNat && c.toNat < 0x7f

def wfStr (s : String) : Bool := s.data.all wfChar

mutual

def jsonWf : Json → Bool
  | .null => true
  | .bool _ => true
  | .num _ => true
  | .str s => wfStr s
  | .arr l => jsonWfList l
  | .obj m => jsonWfMembers m

def jsonWfList : List Json → Bool
  | [] => true
  | x :: xs => jsonWf x && jsonWfList xs

def jsonWfMembers : List (String × Json) → Bool
  | [] => true
  | (k, v) :: rest =>
    wfStr k && jsonWf v && !(lookupKey rest k).isSome && jsonWfMembers rest

end

/-- End-of-number context: the next character cannot extend a numeric
literal (used to state the dump/parse round-trip). -/
def numEnd : List Char → Bool
  | [] => true
  | c :: _ => !(isDigitCh c || c = '.' || c = 'e' || c = 'E')

def c2wOracle : Nat → Reply := fun i =>
  match i with
  | 0 => .ok "<json>\x7b\"foo\": 1\x7d</json>"
  | 1 => .ok "<json>\x7b\"name\": \"respond\", \"kwargs\": \x7b\x7d\x7d</json>"
  | _ => .timeoutErr

def c6wOracle : Nat → Reply := fun _ =>
  .ok "<json>\x7b\"name\": \"list_directory\", \"kwargs\": \x7b\x7d\x7d</json>"

def c10wOracle : Nat → Reply := fun _ =>
  .ok "<json>\x7b\"name\": \"respond\", \"kwargs\": \x7b\"readme\": \"a```json b``` c\", \"metadata\": \x7b\x7d\x7d\x7d</json>"

def c10wKwargs : List (String × Json) :=
  [("readme", Json.str "Install and use"), ("metadata", Json.obj [])]

/-! ## Helper lemmas: tier score bounds -/

theorem clampSub_bounds {mx : Int} {v : Json} {n : Int}
    (hmx : 0 ≤ mx) (h : clampSub mx v = .ok n) : 0 ≤ n ∧ n ≤ mx := by
  cases v with
  | num m => simp [clampSub] at h; omega
  | bool b => cases b <;> simp [clampSub] at h <;> omega
  | null => simp [clampSub] at h
  | str s => simp [clampSub] at h
  | arr l => simp [clampSub] at h
  | obj l => simp [clampSub] at h

theorem score_tier1_bounds {p : Option Json} {r : Int × Tier1Detail}
    (h : score_tier1_structural p = .ok r) : 0 ≤ r.1 ∧ r.1 ≤ 15 := by
  unfold score_tier1_structural at h
  simp only [Except.bind] at h
  repeat' split at h
  all_goals cases h
  all_goals constructor <;> norm_num

theorem score_tier2_bounds {readme : Json} {r : Int × Sections}
    (h : score_tier2_sections readme = .ok r) : 0 ≤ r.1 ∧ r.1 ≤ 25 := by
  unfold score_tier2_sections detect_sections at h
  simp only [Except.map] at h
  repeat' split at h
  all_goals cases h
  all_goals constructor <;> norm_num

theorem tier3Try_bounds {readme md facts : Json} {judge : Option String}
    {r : Int × Tier3Detail}
    (h : tier3Try readme md facts judge = .ok r) : 0 ≤ r.1 ∧ r.1 ≤ 30 := by
  unfold tier3Try at h
  simp only [Except.bind, Except.map] at h
  repeat' split at h
  all_goals cases h
  rename_i x1 p hp x2 dep hdep x3 cmd hcmd
  have b1 := clampSub_bounds (by norm_num) hp
  have b2 := clampSub_bounds (by norm_num) hdep
  have b3 := clampSub_bounds (by norm_num) hcmd
  dsimp only
  omega

theorem tier4Try_bounds {readme : Json} {gt : Option String}
    {judge : Option String} {r : Int × Tier4Detail}
    (h : tier4Try readme gt judge = .ok r) : 0 ≤ r.1 ∧ r.1 ≤ 30 := by
  unfold tier4Try at h
  simp only [Except.bind, Except.map] at h
  repeat' split at h
  all_goals cases h
  rename_i x1 p hp x2 dep hdep x3 cmd hcmd
  have b1 := clampSub_bounds (by norm_num) hp
  have b2 := clampSub_bounds (by norm_num) hdep
  have b3 := clampSub_bounds (by norm_num) hcmd
  dsimp only
  omega

theorem score_tier3_bounds (readme md : Json) (facts : Option Json)
    (judge : Option String) :
    0 ≤ (score_tier3_accuracy readme md facts judge).1 ∧
      (score_tier3_accuracy readme md facts judge).1 ≤ 30 := by
  unfold score_tier3_accuracy
  repeat' split
  all_goals first
    | (rename_i xx rr hok; exact tier3Try_bounds hok)
    | norm_num

theorem score_tier4_bounds (readme md : Json) (gt : Option String)
    (judge : Option String) :
    0 ≤ (score_tier4_quality readme md gt judge).1 ∧
      (score_tier4_quality readme md gt judge).1 ≤ 30 := by
  unfold score_tier4_quality
  repeat' split
  all_goals first
    | (rename_i xx rr hok; exact tier4Try_bounds hok)
    | norm_num

theorem tiersRest_bounds {d : Json} {tcOpt : Option TestCase}
    {j3 j4 : Option String}
    {r : (Int × Option Sections) × (Int × Option Tier3Detail) ×
      (Int × Option Tier4Detail)}
    (h : tiersRest d tcOpt j3 j4 = .ok r) :
    (0 ≤ r.1.1 ∧ r.1.1 ≤ 25) ∧ (0 ≤ r.2.1.1 ∧ r.2.1.1 ≤ 30) ∧
      (0 ≤ r.2.2.1 ∧ r.2.2.1 ≤ 30) := by
  unfold tiersRest at h
  simp only [Except.map] at h
  repeat' split at h
  all_goals cases h
  all_goals first
    | (rename_i xx vv ht2
       exact ⟨score_tier2_bounds ht2, score_tier3_bounds _ _ _ _,
         score_tier4_bounds _ _ _ _⟩)
    | norm_num

/-- C1: for every `ScoreResult` that `score_documentation` produces,
whatever the judge oracles return, the total equals the sum of the four
tier scores, each tier is non-negative and bounded by its per-tier
maximum (15, 25, 30, 30), and the total lies in [0, 100]. -/
theorem c1_scoreresult_invariants (resp : String) (tcOpt : Option TestCase)
    (j3 j4 : Option String) (r : ScoreResult)
    (h : score_documentation resp tcOpt j3 j4 = .ok r) :
    r.total_score = r.tier1_structural + r.tier2_sections +
        r.tier3_accuracy + r.tier4_quality ∧
      0 ≤ r.tier1_structural ∧ r.tier1_structural ≤ 15 ∧
      0 ≤ r.tier2_sections ∧ r.tier2_sections ≤ 25 ∧
      0 ≤ r.tier3_accuracy ∧ r.tier3_accuracy ≤ 30 ∧
      0 ≤ r.tier4_quality ∧ r.tier4_quality ≤ 30 ∧
      0 ≤ r.total_score ∧ r.total_score ≤ 100 := by
  unfold score_documentation at h
  dsimp only at h
  repeat' split at h
  all_goals cases h
  · rename_i x1 t1 ht1 pd dd hnn htr x2 rr hrest
    have b1 := score_tier1_bounds ht1
    have b2 := tiersRest_bounds hrest
    dsimp only
    exact ⟨rfl, by omega⟩
  · rename_i x1 t1 ht1 pd dd hnn hf
    have b1 := score_tier1_bounds ht1
    dsimp only
    exact ⟨rfl, by omega⟩
  · rename_i x1 t1 ht1 pd hnn
    have b1 := score_tier1_bounds ht1
    dsimp only
    exact ⟨rfl, by omega⟩

/-- Witness for C1: a concrete submission; the Tier 3 judge reports an
out-of-range and a negative sub-score (clamped to 12 and 0), the Tier 4
judge reply is unparseable (tier scored 0), and the invariants hold. -/
theorem c1_scoreresult_invariants_witness :
    score_documentation c1wResp (some c1wTc) c1wJ3 c1wJ4 = .ok c1wRC ∧
    (c1wRC.total_score = c1wRC.tier1_structural + c1wRC.tier2_sections +
        c1wRC.tier3_accuracy + c1wRC.tier4_quality ∧
      0 ≤ c1wRC.tier1_structural ∧ c1wRC.tier1_structural ≤ 15 ∧
      0 ≤ c1wRC.tier2_sections ∧ c1wRC.tier2_sections ≤ 25 ∧
      0 ≤ c1wRC.tier3_accuracy ∧ c1wRC.tier3_accuracy ≤ 30 ∧
      0 ≤ c1wRC.tier4_quality ∧ c1wRC.tier4_quality ≤ 30 ∧
      0 ≤ c1wRC.total_score ∧ c1wRC.total_score ≤ 100) :=
  ⟨by decide,
   c1_scoreresult_invariants c1wResp (some c1wTc) c1wJ3 c1wJ4 c1wRC (by decide)⟩

/-- C9: in Tier 1 the readme length check is strictly exclusive: a
readme of exactly 100 characters gets none of the 5 length points, one
of 101 characters gets all 5; the only other points are the 5 for valid
JSON and 5 for metadata (no partial credit). -/
theorem c9_tier1_length_boundary (kvs : List (String × Json)) (rs : String)
    (meta : List (String × Json)) (r : Int × Tier1Detail)
    (hrd : getD kvs "readme" (Json.str "") = Json.str rs)
    (hmd : getD kvs "metadata" (Json.obj []) = Json.obj meta)
    (h : score_tier1_structural (some (.obj kvs)) = .ok r) :
    (rs.length = 100 → r.2.has_readme = false ∧
      r.1 = 5 + (if r.2.valid_metadata then 5 else 0)) ∧
    (rs.length = 101 → r.2.has_readme = true ∧
      r.1 = 5 + 5 + (if r.2.valid_metadata then 5 else 0)) := by
  unfold score_tier1_structural at h
  dsimp only at h
  rw [hrd, hmd] at h
  constructor <;> intro hlen
  · have hne : rs ≠ "" := by
      intro he
      rw [he] at hlen
      exact absurd hlen (by decide)
    have ht : (Json.str rs).truthy = true := by
      simp [Json.truthy, bne_iff_ne]
      exact hne
    rw [if_pos ht] at h
    simp only [pyLen, Except.map, Except.bind] at h
    rw [hlen] at h
    norm_num at h
    cases h
    refine ⟨rfl, ?_⟩
    dsimp only
    simp [Bool.and_eq_true, decide_eq_true_eq, and_assoc]
  · have hne : rs ≠ "" := by
      intro he
      rw [he] at hlen
      exact absurd hlen (by decide)
    have ht : (Json.str rs).truthy = true := by
      simp [Json.truthy, bne_iff_ne]
      exact hne
    rw [if_pos ht] at h
    simp only [pyLen, Except.map, Except.bind] at h
    rw [hlen] at h
    norm_num at h
    cases h
    refine ⟨rfl, ?_⟩
    dsimp only
    simp [Bool.and_eq_true, decide_eq_true_eq, and_assoc]

/-- Witness for C9: a 100-character readme scores 5 (the length points
denied), a 101-character readme scores 10 (metadata invalid in both). -/
theorem c9_tier1_length_boundary_witness :
    (getD [("readme", Json.str s100), ("metadata", Json.obj [])] "readme"
        (Json.str "") = Json.str s100 ∧
     score_tier1_structural (some (.obj [("readme", Json.str s100),
        ("metadata", Json.obj [])])) = .ok (5, ⟨true, false, 100, false⟩) ∧
     (s100.length = 100 →
       ((false : Bool) = false ∧ (5 : Int) = 5 + (if false then 5 else 0)))) ∧
    (score_tier1_structural (some (.obj [("readme", Json.str s101),
        ("metadata", Json.obj [])])) = .ok (10, ⟨true, true, 101, false⟩) ∧
     (s101.length = 101 →
       ((true : Bool) = true ∧ (10 : Int) = 5 + 5 + (if false then 5 else 0)))) :=
  ⟨⟨by decide, by decide,
    (c9_tier1_length_boundary
      [("readme", Json.str s100), ("metadata", Json.obj [])] s100 []
      (5, ⟨true, false, 100, false⟩) (by decide) (by decide) (by decide)).1⟩,
   ⟨by decide,
    (c9_tier1_length_boundary
      [("readme", Json.str s101), ("metadata", Json.obj [])] s101 []
      (10, ⟨true, true, 101, false⟩) (by decide) (by decide) (by decide)).2⟩⟩

theorem tiersRest_no_facts {d : Json} {tcOpt : Option TestCase}
    {j3 j4 : Option String}
    {rr : (Int × Option Sections) × (Int × Option Tier3Detail) ×
      (Int × Option Tier4Detail)}
    (hf : tcFacts tcOpt = none)
    (h : tiersRest d tcOpt j3 j4 = .ok rr) :
    (rr.2.1.1 = 15 ∧ rr.2.1.2 = some Tier3Detail.noFacts) ∨
      (rr.2.1.1 = 0 ∧ rr.2.1.2 = none ∧ rr.1.2 = none) := by
  unfold tiersRest at h
  simp only [Except.map] at h
  repeat' split at h
  all_goals cases h
  · left
    dsimp only
    rw [hf]
    exact ⟨rfl, rfl⟩
  · right
    exact ⟨rfl, rfl, rfl⟩

/-- C3 counterexample: a submission that parses but has no readme,
scored against a TestCase with no fact sheet, receives Tier 3 = 0, not
the fixed partial credit 15 (the tier never runs when the readme is
falsy), even though a Tier 3 judge oracle is available. -/
theorem c3_counterexample :
    score_documentation "\x7b\"metadata\": \x7b\"a\": 1\x7d\x7d"
        (some ⟨"t", ["tr", "repo"], [], none, none⟩)
        (some "\x7b\"purpose\": 12, \"dependencies\": 10, \"run_command\": 8\x7d")
        none =
      .ok ⟨5, 0, 0, 0, 5, 100, false, ⟨true, false, 0, false⟩,
           none, none, none⟩ ∧
    (0 : Int) ≠ 15 := ⟨by decide, by decide⟩

/-- C3 (amended): `score_tier3_accuracy` awards exactly the fixed 15
with a no-facts note whenever the fact sheet is absent or falsy, for
every judge oracle (so no judge call can influence the result); through
`score_documentation`, a facts-less TestCase yields Tier 3 = 15 exactly
when tiers 2-4 ran (truthy parsed readme), and Tier 3 = 0 with no
detail when they were skipped. -/
theorem c3_tier3_no_facts_partial_credit :
    (∀ (rm md : Json) (j : Option String),
        score_tier3_accuracy rm md none j = (15, .noFacts)) ∧
    (∀ (rm md f : Json) (j : Option String), f.truthy = false →
        score_tier3_accuracy rm md (some f) j = (15, .noFacts)) ∧
    (∀ (resp : String) (tc : TestCase) (j3 j4 : Option String)
        (r : ScoreResult), tc.facts = none →
        score_documentation resp (some tc) j3 j4 = .ok r →
        (r.tier3_accuracy = 15 ∧ r.tier3_details = some Tier3Detail.noFacts) ∨
        (r.tier3_accuracy = 0 ∧ r.tier3_details = none ∧
          r.tier2_details = none)) := by
  refine ⟨fun rm md j => rfl, fun rm md f j hf => ?_, ?_⟩
  · unfold score_tier3_accuracy
    dsimp only
    rw [hf]
    simp
  · intro resp tc j3 j4 r hfacts h
    unfold score_documentation at h
    dsimp only at h
    repeat' split at h
    all_goals cases h
    · rename_i x1 t1 ht1 pd dd hnn htr x2 rr hrest
      have hfc : tcFacts (some tc) = none := hfacts
      rcases tiersRest_no_facts hfc hrest with ⟨ha, hb⟩ | ⟨ha, hb, hc⟩
      · left
        exact ⟨ha, hb⟩
      · right
        exact ⟨ha, hb, hc⟩
    · right
      exact ⟨rfl, rfl, rfl⟩
    · right
      exact ⟨rfl, rfl, rfl⟩

/-- Witness for C3 (amended), at a facts-less TestCase with a truthy
readme: Tier 3 is exactly 15 with the no-facts note. -/
theorem c3_tier3_no_facts_partial_credit_witness :
    (⟨"t", ["tr", "repo"], [], none, none⟩ : TestCase).facts = none ∧
    score_documentation "\x7b\"readme\": \"hi\", \"metadata\": \x7b\x7d\x7d"
        (some ⟨"t", ["tr", "repo"], [], none, none⟩) none none =
      .ok ⟨5, 0, 15, 0, 20, 100, false, ⟨true, false, 2, false⟩,
           some ⟨false, false, false⟩, some Tier3Detail.noFacts,
           some (Tier4Detail.err "judge call raised")⟩ ∧
    (((15 : Int) = 15 ∧ (some Tier3Detail.noFacts = some Tier3Detail.noFacts)) ∨
      ((15 : Int) = 0 ∧ (some Tier3Detail.noFacts : Option Tier3Detail) = none ∧
        (some (⟨false, false, false⟩ : Sections) : Option Sections) = none)) :=
  ⟨by decide, by decide,
   c3_tier3_no_facts_partial_credit.2.2
     "\x7b\"readme\": \"hi\", \"metadata\": \x7b\x7d\x7d"
     ⟨"t", ["tr", "repo"], [], none, none⟩ none none
     ⟨5, 0, 15, 0, 20, 100, false, ⟨true, false, 2, false⟩,
      some ⟨false, false, false⟩, some Tier3Detail.noFacts,
      some (Tier4Detail.err "judge call raised")⟩ (by decide) (by decide)⟩

theorem except_map_isOk {α β : Type} (f : α → β) (x : Except String α) :
    (Except.map f x).isOk = x.isOk := by cases x <;> rfl

theorem tiersRest_isOk_judges (d : Json) (tcOpt : Option TestCase)
    (j3 j4 j3x j4x : Option String) :
    (tiersRest d tcOpt j3 j4).isOk = (tiersRest d tcOpt j3x j4x).isOk := by
  unfold tiersRest
  cases d <;> try rfl
  dsimp only
  split
  · rw [except_map_isOk, except_map_isOk]
  · rfl

theorem score_documentation_isOk_judges (resp : String)
    (tcOpt : Option TestCase) (j3 j4 j3x j4x : Option String) :
    (score_documentation resp tcOpt j3 j4).isOk =
      (score_documentation resp tcOpt j3x j4x).isOk := by
  unfold score_documentation
  dsimp only
  cases h1 : score_tier1_structural
      (nullToNone (jsonLoads (stripFencesResponse (pyStrip resp))))
  · rfl
  · cases h2 : nullToNone (jsonLoads (stripFencesResponse (pyStrip resp))) with
    | none => rfl
    | some d =>
      dsimp only
      by_cases hd : d.truthy = true
      · rw [if_pos hd, if_pos hd]
        have hok := tiersRest_isOk_judges d tcOpt j3 j4 j3x j4x
        cases h3 : tiersRest d tcOpt j3 j4 <;>
          cases h4 : tiersRest d tcOpt j3x j4x <;>
          rw [h3, h4] at hok <;> simp_all [Except.isOk, Except.toBool]
      · rw [if_neg hd, if_neg hd]

/-- C7: a judge-call exception or judge-reply parse failure (anything
the tier's `try` block turns into an exception) makes that tier score
exactly 0 with an error detail; and whether `score_documentation`
completes at all never depends on the judge oracles, so a judge failure
cannot abort scoring of the remaining tiers or the test case. -/
theorem c7_judge_failure_fail_soft :
    (∀ (rm md f : Json) (j : Option String) (e : String),
        f.truthy = true → tier3Try rm md f j = .error e →
        score_tier3_accuracy rm md (some f) j = (0, .err e)) ∧
    (∀ (rm md : Json) (gt j : Option String) (e : String),
        tier4Try rm gt j = .error e →
        score_tier4_quality rm md gt j = (0, .err e)) ∧
    (∀ (resp : String) (tcOpt : Option TestCase) (j3 j4 j3x j4x : Option String),
        (score_documentation resp tcOpt j3 j4).isOk =
          (score_documentation resp tcOpt j3x j4x).isOk) := by
  refine ⟨?_, ?_, fun resp tcOpt j3 j4 j3x j4x =>
    score_documentation_isOk_judges resp tcOpt j3 j4 j3x j4x⟩
  · intro rm md f j e hf htry
    unfold score_tier3_accuracy
    dsimp only
    rw [hf, if_pos rfl, htry]
  · intro rm md gt j e htry
    unfold score_tier4_quality
    rw [htry]

/-- Witness for C7: with `facts` present, a raising Tier 3 judge and a
garbage Tier 4 judge reply both tiers score 0 with an error detail,
while scoring still completes. -/
theorem c7_judge_failure_fail_soft_witness :
    ((Json.obj [("a", Json.num 1)]).truthy = true ∧
     tier3Try (.str "x") (.obj []) (.obj [("a", Json.num 1)]) none =
       .error "judge call raised" ∧
     score_tier3_accuracy (.str "x") (.obj [])
       (some (.obj [("a", Json.num 1)])) none =
       (0, .err "judge call raised")) ∧
    (tier4Try (.str "x") none (some "garbage") = .error "JSONDecodeError" ∧
     score_tier4_quality (.str "x") (.obj []) none (some "garbage") =
       (0, .err "JSONDecodeError")) ∧
    (score_documentation c1wResp (some c1wTc) none (some "garbage")).isOk =
      (score_documentation c1wResp (some c1wTc) (some "ok") none).isOk :=
  ⟨⟨by decide, by decide,
    c7_judge_failure_fail_soft.1 (.str "x") (.obj [])
      (.obj [("a", Json.num 1)]) none "judge call raised"
      (by decide) (by decide)⟩,
   ⟨by decide,
    c7_judge_failure_fail_soft.2.1 (.str "x") (.obj []) none
      (some "garbage") "JSONDecodeError" (by decide)⟩,
   c7_judge_failure_fail_soft.2.2 c1wResp (some c1wTc) none
     (some "garbage") (some "ok") none⟩

theorem executeTool_read_file (tc : TestCase) (fs : FileSys) (p : String) :
    executeTool (.str "read_file") (.obj [("path", .str p)]) tc fs =
      (if ¬ (Json.str p).truthy = true then
        .ok "Error: \x27path\x27 parameter is required"
      else if ¬ strStartsWith (pathStr (resolveJoin tc.repo_path p))
          (pathStr (resolveAbs tc.repo_path)) = true then
        .ok "Error: Cannot access paths outside the repository"
      else if containsSubStr (pathStr (resolveJoin tc.repo_path p))
          "ground_truth" = true then
        .ok "Error: Cannot access ground truth files"
      else
        match lookupNode fs (resolveJoin tc.repo_path p) with
        | none => .ok ("Error: File does not exist: " ++ p)
        | some .dir => .ok ("Error: Path is not a file: " ++ p)
        | some (.file content) => .ok content) := rfl

theorem executeTool_list_dir (tc : TestCase) (fs : FileSys) (p : String) :
    executeTool (.str "list_directory") (.obj [("path", .str p)]) tc fs =
      (if ¬ strStartsWith (pathStr (resolveJoin tc.repo_path p))
          (pathStr (resolveAbs tc.repo_path)) = true then
        .ok "Error: Cannot access paths outside the repository"
      else
        match lookupNode fs (resolveJoin tc.repo_path p) with
        | none => .ok ("Error: Path does not exist: " ++ p)
        | some (.file _) => .ok ("Error: Path is not a directory: " ++ p)
        | some .dir =>
          .ok (jsonDumpsIndent2 (.arr
            (((sortEntries (childrenOf fs (resolveJoin tc.repo_path p))).filterMap
              (fun e => if strStartsWith e.1 "." || e.1 = "ground_truth" then none
                else some (e.1 ++ (if e.2 then "/" else "")))).map .str)))) := rfl

/-- C4 counterexample: from root `/tr/repo`, the path
`../repo2/sec.txt` resolves to `/tr/repo2/sec.txt` — outside the
test-case root — yet `read_file` returns the file contents, because the
containment check is a textual prefix test on the resolved path string
and `/tr/repo` is a prefix of `/tr/repo2/sec.txt`. -/
theorem c4_counterexample :
    resolveJoin c4Tc.repo_path "../repo2/sec.txt" =
      ["tr", "repo2", "sec.txt"] ∧
    (["tr", "repo2", "sec.txt"] : List String).take 2 ≠ c4Tc.repo_path ∧
    executeTool (.str "read_file")
        (.obj [("path", .str "../repo2/sec.txt")]) c4Tc c4Fs =
      .ok "SECRET" :=
  ⟨by decide, by decide, by decide⟩

/-- C4 (amended): `read_file` denies exactly by the code's two checks —
any non-empty string path whose resolved path string does not start
with the resolved root's string gets the access-denied string, any that
passes the prefix check but whose resolved path string contains
`ground_truth` gets the ground-truth denial — and for every string path
the call returns an error-or-content string, never an exception. -/
theorem c4_read_file_denials (tc : TestCase) (fs : FileSys) (p : String) :
    (p ≠ "" →
      strStartsWith (pathStr (resolveJoin tc.repo_path p))
          (pathStr (resolveAbs tc.repo_path)) = false →
      executeTool (.str "read_file") (.obj [("path", .str p)]) tc fs =
        .ok "Error: Cannot access paths outside the repository") ∧
    (p ≠ "" →
      strStartsWith (pathStr (resolveJoin tc.repo_path p))
          (pathStr (resolveAbs tc.repo_path)) = true →
      containsSubStr (pathStr (resolveJoin tc.repo_path p))
          "ground_truth" = true →
      executeTool (.str "read_file") (.obj [("path", .str p)]) tc fs =
        .ok "Error: Cannot access ground truth files") ∧
    (∀ q : String, ∃ s : String,
      executeTool (.str "read_file") (.obj [("path", .str q)]) tc fs =
        .ok s) := by
  refine ⟨?_, ?_, ?_⟩
  · intro hp hpre
    have htr : (Json.str p).truthy = true := by
      simp [Json.truthy, bne_iff_ne]
      exact hp
    rw [executeTool_read_file, if_neg (by simp [htr]),
      if_pos (by simp [hpre])]
  · intro hp hpre hgt
    have htr : (Json.str p).truthy = true := by
      simp [Json.truthy, bne_iff_ne]
      exact hp
    rw [executeTool_read_file, if_neg (by simp [htr]),
      if_neg (by simp [hpre]), if_pos hgt]
  · intro q
    rw [executeTool_read_file]
    by_cases h1 : ¬ (Json.str q).truthy = true
    · exact ⟨_, if_pos h1⟩
    · by_cases h2 : ¬ strStartsWith (pathStr (resolveJoin tc.repo_path q))
          (pathStr (resolveAbs tc.repo_path)) = true
      · rw [if_neg h1]
        exact ⟨_, if_pos h2⟩
      · by_cases h3 : containsSubStr (pathStr (resolveJoin tc.repo_path q))
            "ground_truth" = true
        · rw [if_neg h1, if_neg h2]
          exact ⟨_, if_pos h3⟩
        · rw [if_neg h1, if_neg h2, if_neg h3]
          cases hnode : lookupNode fs (resolveJoin tc.repo_path q) with
          | none => exact ⟨_, rfl⟩
          | some node => cases node <;> exact ⟨_, rfl⟩

/-- Witness for C4 (amended) at concrete inputs: a traversal truly
outside the prefix is denied, and a ground-truth path is denied. -/
theorem c4_read_file_denials_witness :
    (("../../etc/passwd" : String) ≠ "" ∧
     strStartsWith (pathStr (resolveJoin c4Tc.repo_path "../../etc/passwd"))
       (pathStr (resolveAbs c4Tc.repo_path)) = false ∧
     executeTool (.str "read_file")
         (.obj [("path", .str "../../etc/passwd")]) c4Tc c4Fs =
       .ok "Error: Cannot access paths outside the repository") ∧
    (("ground_truth/facts.json" : String) ≠ "" ∧
     containsSubStr
       (pathStr (resolveJoin c4Tc.repo_path "ground_truth/facts.json"))
       "ground_truth" = true ∧
     executeTool (.str "read_file")
         (.obj [("path", .str "ground_truth/facts.json")]) c4Tc c4Fs =
       .ok "Error: Cannot access ground truth files") :=
  ⟨⟨by decide, by decide,
    (c4_read_file_denials c4Tc c4Fs "../../etc/passwd").1
      (by decide) (by decide)⟩,
   ⟨by decide, by decide,
    (c4_read_file_denials c4Tc c4Fs "ground_truth/facts.json").2.1
      (by decide) (by decide) (by decide)⟩⟩

/-- C5: `list_directory` applied to `ground_truth` (when it resolves
inside the root and exists as a directory) returns the JSON listing of
the privileged directory's contents — the `ground_truth` filter only
hides that *entry name* inside a listed parent — while `read_file` on a
path inside `ground_truth` is denied. -/
theorem c5_list_directory_ground_truth (tc : TestCase) (fs : FileSys)
    (hpre1 : strStartsWith (pathStr (resolveJoin tc.repo_path "ground_truth"))
      (pathStr (resolveAbs tc.repo_path)) = true)
    (hdir : lookupNode fs (resolveJoin tc.repo_path "ground_truth") =
      some FNode.dir)
    (hpre2 : strStartsWith
      (pathStr (resolveJoin tc.repo_path "ground_truth/README.md"))
      (pathStr (resolveAbs tc.repo_path)) = true)
    (hgt : containsSubStr
      (pathStr (resolveJoin tc.repo_path "ground_truth/README.md"))
      "ground_truth" = true) :
    executeTool (.str "list_directory") (.obj [("path", .str "ground_truth")])
        tc fs =
      .ok (jsonDumpsIndent2 (.arr
        (((sortEntries (childrenOf fs (resolveJoin tc.repo_path "ground_truth"))).filterMap
          (fun e => if strStartsWith e.1 "." || e.1 = "ground_truth" then none
            else some (e.1 ++ (if e.2 then "/" else "")))).map .str))) ∧
    executeTool (.str "list_directory") (.obj [("path", .str "ground_truth")])
        tc fs ≠ .ok "Error: Cannot access paths outside the repository" ∧
    executeTool (.str "list_directory") (.obj [("path", .str "ground_truth")])
        tc fs ≠ .ok "Error: Cannot access ground truth files" ∧
    executeTool (.str "read_file")
        (.obj [("path", .str "ground_truth/README.md")]) tc fs =
      .ok "Error: Cannot access ground truth files" := by
  have hlist : executeTool (.str "list_directory")
      (.obj [("path", .str "ground_truth")]) tc fs =
      .ok (jsonDumpsIndent2 (.arr
        (((sortEntries (childrenOf fs (resolveJoin tc.repo_path "ground_truth"))).filterMap
          (fun e => if strStartsWith e.1 "." || e.1 = "ground_truth" then none
            else some (e.1 ++ (if e.2 then "/" else "")))).map .str))) := by
    rw [executeTool_list_dir, if_neg (by simp [hpre1]), hdir]
  refine ⟨hlist, ?_, ?_, ?_⟩
  · rw [hlist]
    intro hcontra
    injection hcontra with hc
    have : strStartsWith "Error: Cannot access paths outside the repository"
        "[" = true := by
      rw [← hc]
      cases hl : ((sortEntries (childrenOf fs
          (resolveJoin tc.repo_path "ground_truth"))).filterMap
          (fun e => if strStartsWith e.1 "." || e.1 = "ground_truth" then none
            else some (e.1 ++ (if e.2 then "/" else "")))) <;>
        simp [jsonDumpsIndent2, dumpInd, strStartsWith, listStartsWith,
          hl]
    exact absurd this (by decide)
  · rw [hlist]
    intro hcontra
    injection hcontra with hc
    have : strStartsWith "Error: Cannot access ground truth files"
        "[" = true := by
      rw [← hc]
      cases hl : ((sortEntries (childrenOf fs
          (resolveJoin tc.repo_path "ground_truth"))).filterMap
          (fun e => if strStartsWith e.1 "." || e.1 = "ground_truth" then none
            else some (e.1 ++ (if e.2 then "/" else "")))) <;>
        simp [jsonDumpsIndent2, dumpInd, strStartsWith, listStartsWith,
          hl]
    exact absurd this (by decide)
  · rw [executeTool_read_file, if_neg (by decide), if_neg (by simp [hpre2]),
      if_pos hgt]

/-- Witness for C5: on a concrete tree the listing of `ground_truth`
is the JSON array of its two reference files. -/
theorem c5_list_directory_ground_truth_witness :
    strStartsWith (pathStr (resolveJoin c5Tc.repo_path "ground_truth"))
      (pathStr (resolveAbs c5Tc.repo_path)) = true ∧
    lookupNode c5Fs (resolveJoin c5Tc.repo_path "ground_truth") =
      some FNode.dir ∧
    executeTool (.str "list_directory") (.obj [("path", .str "ground_truth")])
        c5Tc c5Fs = .ok "[\n  \"README.md\",\n  \"facts.json\"\n]" ∧
    executeTool (.str "read_file")
        (.obj [("path", .str "ground_truth/README.md")]) c5Tc c5Fs =
      .ok "Error: Cannot access ground truth files" :=
  ⟨by decide, by decide,
   by
     have h := (c5_list_directory_ground_truth c5Tc c5Fs (by decide)
       (by decide) (by decide) (by decide)).1
     rw [h]
     decide,
   (c5_list_directory_ground_truth c5Tc c5Fs (by decide) (by decide)
     (by decide) (by decide)).2.2.2⟩

theorem filterMap_if_none {α : Type} (P : α → Bool) (g : α → String)
    (l : List α) :
    l.filterMap (fun e => if P e then none else some (g e)) =
      (l.filter (fun e => !P e)).map g := by
  induction l with
  | nil => rfl
  | cons x xs ih =>
    rw [List.filterMap_cons, List.filter_cons]
    cases hP : P x
    · simp only [hP, Bool.false_eq_true, if_false, Bool.not_false, if_true,
        List.map_cons, ih]
    · simp only [hP, if_true, Bool.not_true, Bool.false_eq_true, if_false,
        ih]

/-- C8 counterexample: listing a directory holding a subdirectory `a`
and a file `a!` yields the array `["a/", "a!"]` — dotfiles and the
`ground_truth` entry are hidden, but the array is *not*
lexicographically sorted, because the `/` suffix (0x2f) sorts after
`!` (0x21): entries are sorted by entry name before the suffix is
appended. -/
theorem c8_counterexample :
    executeTool (.str "list_directory") (.obj [("path", .str ".")])
        c8Tc c8Fs = .ok "[\n  \"a/\",\n  \"a!\"\n]" ∧
    strLeB "a/".data "a!".data = false :=
  ⟨by decide, by decide⟩

/-- C8 (amended): for every existing directory path passing the
containment check, `list_directory` returns the JSON array of
entries sorted by entry name (directories suffixed `/` after sorting),
containing no dotfile and no entry named `ground_truth`, and drawn from
the directory's real children.  (The call is a pure function of the
filesystem in this model, so determinism/idempotence on an unchanged
filesystem holds definitionally.) -/
theorem c8_list_directory_output (tc : TestCase) (fs : FileSys) (p : String)
    (hpre : strStartsWith (pathStr (resolveJoin tc.repo_path p))
      (pathStr (resolveAbs tc.repo_path)) = true)
    (hdir : lookupNode fs (resolveJoin tc.repo_path p) = some FNode.dir) :
    ∃ entries : List (String × Bool),
      executeTool (.str "list_directory") (.obj [("path", .str p)]) tc fs =
        .ok (jsonDumpsIndent2 (.arr (entries.map
          (fun e => Json.str (e.1 ++ (if e.2 then "/" else "")))))) ∧
      entries.Pairwise entryLe ∧
      (∀ e ∈ entries, strStartsWith e.1 "." = false ∧ e.1 ≠ "ground_truth") ∧
      (∀ e ∈ entries, e ∈ childrenOf fs (resolveJoin tc.repo_path p)) := by
  refine ⟨(sortEntries (childrenOf fs (resolveJoin tc.repo_path p))).filter
    (fun e => !(strStartsWith e.1 "." || e.1 = "ground_truth")), ?_, ?_, ?_, ?_⟩
  · rw [executeTool_list_dir, if_neg (by simp [hpre]), hdir,
      filterMap_if_none, List.map_map]
    rfl
  · exact (List.sorted_insertionSort entryLe _).filter _
  · intro e he
    have := List.of_mem_filter he
    simp only [Bool.not_eq_true', Bool.or_eq_false_iff] at this
    exact ⟨this.1, by simpa using this.2⟩
  · intro e he
    have h1 : e ∈ sortEntries (childrenOf fs (resolveJoin tc.repo_path p)) :=
      List.mem_of_mem_filter he
    exact (List.perm_insertionSort entryLe _).mem_iff.mp h1

/-- Witness for C8 (amended) on the concrete two-entry directory. -/
theorem c8_list_directory_output_witness :
    strStartsWith (pathStr (resolveJoin c8Tc.repo_path "."))
      (pathStr (resolveAbs c8Tc.repo_path)) = true ∧
    lookupNode c8Fs (resolveJoin c8Tc.repo_path ".") = some FNode.dir ∧
    (∃ entries : List (String × Bool),
      executeTool (.str "list_directory") (.obj [("path", .str ".")])
          c8Tc c8Fs =
        .ok (jsonDumpsIndent2 (.arr (entries.map
          (fun e => Json.str (e.1 ++ (if e.2 then "/" else "")))))) ∧
      entries.Pairwise entryLe ∧
      (∀ e ∈ entries, strStartsWith e.1 "." = false ∧ e.1 ≠ "ground_truth") ∧
      (∀ e ∈ entries, e ∈ childrenOf c8Fs (resolveJoin c8Tc.repo_path "."))) :=
  ⟨by decide, by decide,
   c8_list_directory_output c8Tc c8Fs "." (by decide) (by decide)⟩

/-! ## The dump/parse round-trip and the evaluation-loop step lemmas -/

theorem parseVal_ws (f : Nat) (X : List Char) :
    parseVal f (' ' :: X) = parseVal f X := by
  cases f <;> rfl

theorem foldrEsc_append (l xs ys : List Char) :
    (l.foldr (fun c acc => escChar c ++ acc) xs) ++ ys =
      l.foldr (fun c acc => escChar c ++ acc) (xs ++ ys) := by
  induction l with
  | nil => rfl
  | cons c cs ih => simp [List.foldr_cons, List.append_assoc, ih]

theorem escChar_plain (c : Char) (hwf : wfChar c = true)
    (h1 : c ≠ '"') (h2 : c ≠ '\\') : escChar c = [c] := by
  have hge : 0x20 ≤ c.toNat ∧ c.toNat < 0x7f := by
    simpa [wfChar, Bool.and_eq_true, decide_eq_true_eq] using hwf
  unfold escChar
  rw [if_neg h1, if_neg h2,
    if_neg (show c ≠ '\n' from fun h => by subst h; simp [wfChar] at hwf),
    if_neg (show c ≠ '\t' from fun h => by subst h; simp [wfChar] at hwf),
    if_neg (show c ≠ '\r' from fun h => by subst h; simp [wfChar] at hwf),
    if_neg (show c ≠ '\x08' from fun h => by subst h; simp [wfChar] at hwf),
    if_neg (show c ≠ '\x0c' from fun h => by subst h; simp [wfChar] at hwf),
    if_neg (show ¬ c.toNat < 0x20 from by omega),
    if_pos (show c.toNat < 0x80 from by omega)]

theorem parseStrBody_escq (f : Nat) (tail : List Char) :
    parseStrBody (f + 1) ('\\' :: '"' :: tail) =
      (parseStrBody f tail).map (fun p => ('"' :: p.1, p.2)) := rfl

theorem parseStrBody_escb (f : Nat) (tail : List Char) :
    parseStrBody (f + 1) ('\\' :: '\\' :: tail) =
      (parseStrBody f tail).map (fun p => ('\\' :: p.1, p.2)) := rfl

theorem parseStrBody_quote (f : Nat) (tail : List Char) :
    parseStrBody (f + 1) ('"' :: tail) = some ([], tail) := rfl

theorem parseStrBody_plain (f : Nat) (c : Char) (tail : List Char)
    (h1 : c ≠ '"') (h2 : c ≠ '\\') (h3 : 0x20 ≤ c.toNat) :
    parseStrBody (f + 1) (c :: tail) =
      (parseStrBody f tail).map (fun p => (c :: p.1, p.2)) := by
  show (if c = '"' then some ([], tail)
    else if c = '\\' then _
    else if c.toNat < 0x20 then none
    else (parseStrBody f tail).map (fun p => (c :: p.1, p.2))) = _
  rw [if_neg h1, if_neg h2, if_neg (by omega)]

theorem skipWs_nonws (c : Char) (t : List Char) (h : isJsonWs c = false) :
    skipWs (c :: t) = c :: t := by
  simp [skipWs, List.dropWhile_cons, h]

theorem parseStrBody_esc : ∀ (cs rest : List Char) (fuel : Nat),
    (∀ c ∈ cs, wfChar c = true) →
    (cs.foldr (fun c acc => escChar c ++ acc) ('"' :: rest)).length ≤ fuel →
    parseStrBody fuel (cs.foldr (fun c acc => escChar c ++ acc) ('"' :: rest)) =
      some (cs, rest) := by
  intro cs
  induction cs with
  | nil =>
    intro rest fuel _ hlen
    simp only [List.foldr_nil] at hlen ⊢
    cases fuel with
    | zero => simp at hlen
    | succ f => exact parseStrBody_quote f rest
  | cons c cs ih =>
    intro rest fuel hwf hlen
    have hwfc : wfChar c = true := hwf c (List.mem_cons_self c cs)
    have hwfcs : ∀ x ∈ cs, wfChar x = true := fun x hx => hwf x (List.mem_cons_of_mem c hx)
    simp only [List.foldr_cons] at hlen ⊢
    by_cases hq : c = '"'
    · subst hq
      have hesc : escChar '"' = ['\\', '"'] := rfl
      rw [hesc] at hlen ⊢
      simp only [List.length_append, List.length_cons, List.length_nil] at hlen
      cases fuel with
      | zero => omega
      | succ f =>
        rw [show (['\\', '"'] : List Char) ++
            (cs.foldr (fun c acc => escChar c ++ acc) ('"' :: rest)) =
            '\\' :: '"' :: (cs.foldr (fun c acc => escChar c ++ acc) ('"' :: rest)) from rfl,
          parseStrBody_escq, ih rest f hwfcs (by omega)]
        rfl
    · by_cases hb : c = '\\'
      · subst hb
        have hesc : escChar '\\' = ['\\', '\\'] := rfl
        rw [hesc] at hlen ⊢
        simp only [List.length_append, List.length_cons, List.length_nil] at hlen
        cases fuel with
        | zero => omega
        | succ f =>
          rw [show (['\\', '\\'] : List Char) ++
              (cs.foldr (fun c acc => escChar c ++ acc) ('"' :: rest)) =
              '\\' :: '\\' :: (cs.foldr (fun c acc => escChar c ++ acc) ('"' :: rest)) from rfl,
            parseStrBody_escb, ih rest f hwfcs (by omega)]
          rfl
      · rw [escChar_plain c hwfc hq hb] at hlen ⊢
        simp only [List.length_append, List.length_cons, List.length_nil] at hlen
        have hge : 0x20 ≤ c.toNat := by
          have := hwfc
          simp [wfChar, Bool.and_eq_true, decide_eq_true_eq] at this
          exact this.1
        cases fuel with
        | zero => simp at hlen
        | succ f =>
          rw [List.singleton_append, parseStrBody_plain f c _ hq hb hge,
            ih rest f hwfcs (by omega)]
          rfl

theorem digit_char_spec (m : Nat) (h : m < 10) :
    isDigitCh (Char.ofNat (48 + m)) = true ∧ digitVal (Char.ofNat (48 + m)) = m ∧
      (1 ≤ m → Char.ofNat (48 + m) ≠ '0') ∧ isJsonWs (Char.ofNat (48 + m)) = false := by
  interval_cases m <;> exact ⟨rfl, rfl, by intro h1 h2; first | exact absurd h2 (by decide) | omega, rfl⟩

theorem natDigitsAux_digits : ∀ (f n : Nat), ∀ c ∈ natDigitsAux f n, isDigitCh c = true := by
  intro f
  induction f with
  | zero => intro n c hc; simp [natDigitsAux] at hc
  | succ f ih =>
    intro n c hc
    unfold natDigitsAux at hc
    by_cases h : n < 10
    · rw [if_pos h] at hc
      simp at hc
      subst hc
      exact (digit_char_spec n h).1
    · rw [if_neg h] at hc
      rcases List.mem_append.mp hc with h1 | h2
      · exact ih (n / 10) c h1
      · simp at h2
        subst h2
        exact (digit_char_spec (n % 10) (Nat.mod_lt n (by omega))).1

theorem natDigitsAux_foldl : ∀ (f n : Nat), n < f → ∀ acc,
    (natDigitsAux f n).foldl (fun a c => a * 10 + digitVal c) acc =
      acc * 10 ^ (natDigitsAux f n).length + n := by
  intro f
  induction f with
  | zero => intro n h; omega
  | succ f ih =>
    intro n h acc
    unfold natDigitsAux
    by_cases h10 : n < 10
    · rw [if_pos h10]
      simp [List.foldl_cons, (digit_char_spec n h10).2.1]
    · rw [if_neg h10]
      have hdiv : n / 10 < f := by
        have := Nat.div_lt_self (show 0 < n by omega) (show 1 < 10 by omega)
        omega
      rw [List.foldl_append, List.foldl_cons, List.foldl_nil,
        ih (n / 10) hdiv acc, List.length_append, List.length_cons, List.length_nil]
      rw [(digit_char_spec (n % 10) (Nat.mod_lt n (by omega))).2.1]
      have hmod : 10 * (n / 10) + n % 10 = n := Nat.div_add_mod n 10
      have hpow : 10 ^ ((natDigitsAux f (n / 10)).length + (0 + 1)) =
          10 ^ (natDigitsAux f (n / 10)).length * 10 := by
        simp [pow_succ]
      rw [hpow]
      ring_nf
      omega

theorem natDigitsAux_head : ∀ (f n : Nat), 1 ≤ n → n < f →
    ∃ c cs, natDigitsAux f n = c :: cs ∧ c ≠ '0' ∧ isDigitCh c = true := by
  intro f
  induction f with
  | zero => intro n _ h; omega
  | succ f ih =>
    intro n h1 h2
    unfold natDigitsAux
    by_cases h10 : n < 10
    · rw [if_pos h10]
      exact ⟨Char.ofNat (48 + n), [], rfl, (digit_char_spec n h10).2.2.1 h1,
        (digit_char_spec n h10).1⟩
    · rw [if_neg h10]
      have hdiv : n / 10 < f := by
        have := Nat.div_lt_self (show 0 < n by omega) (show 1 < 10 by omega)
        omega
      obtain ⟨c, cs, heq, hne, hdig⟩ := ih (n / 10) (by omega) hdiv
      exact ⟨c, cs ++ [Char.ofNat (48 + n % 10)], by rw [heq]; rfl, hne, hdig⟩

theorem parseDigitsAux_append : ∀ (ds : List Char) (rest : List Char) (acc : Nat),
    (∀ c ∈ ds, isDigitCh c = true) →
    (∀ c, rest.head? = some c → isDigitCh c = false) →
    parseDigitsAux (ds ++ rest) acc =
      (ds.foldl (fun a c => a * 10 + digitVal c) acc, rest) := by
  intro ds
  induction ds with
  | nil =>
    intro rest acc _ hrest
    cases rest with
    | nil => rfl
    | cons c t =>
      simp only [List.nil_append, List.foldl_nil]
      unfold parseDigitsAux
      rw [if_neg (by rw [hrest c rfl]; exact Bool.false_ne_true)]
  | cons d ds ih =>
    intro rest acc hds hrest
    simp only [List.cons_append, List.foldl_cons]
    unfold parseDigitsAux
    rw [if_pos (hds d (List.mem_cons_self d ds))]
    exact ih rest _ (fun c hc => hds c (List.mem_cons_of_mem d hc)) hrest

theorem natRepr_shape (n : Nat) :
    ∃ c cs, natRepr n = c :: cs ∧ isDigitCh c = true ∧
      (n = 0 → c = '0' ∧ cs = []) ∧ (1 ≤ n → c ≠ '0') := by
  cases n with
  | zero => exact ⟨'0', [], rfl, rfl, fun _ => ⟨rfl, rfl⟩, fun h => by omega⟩
  | succ m =>
    obtain ⟨c, cs, heq, hne, hdig⟩ := natDigitsAux_head (m + 2) (m + 1) (by omega) (by omega)
    exact ⟨c, cs, heq, hdig, fun h => by omega, fun _ => hne⟩

theorem parseNat_natRepr (n : Nat) (rest : List Char)
    (hrest : ∀ c, rest.head? = some c → isDigitCh c = false) :
    parseNatNum (natRepr n ++ rest) = some (n, rest) := by
  cases n with
  | zero => exact congrArg some (congrArg (Prod.mk 0) rfl)
  | succ m =>
    obtain ⟨c, cs, heq, hdig, _, hne⟩ := natRepr_shape (m + 1)
    have hall : ∀ x ∈ natRepr (m + 1), isDigitCh x = true := natDigitsAux_digits (m + 2) (m + 1)
    rw [heq]
    rw [parseNatNum.eq_def]
    split
    · rename_i h; exact absurd h (by simp)
    · rename_i h
      have : c = '0' := (List.cons.inj h).1
      exact absurd this (hne (by omega))
    · rename_i x0 ch tl hnz h
      have hc : ch = c := (List.cons.inj h).1.symm
      have hr : tl = cs ++ rest := ((List.cons.inj h).2).symm
      rw [hc, hr, if_pos hdig]
      rw [parseDigitsAux_append cs rest (digitVal c)
        (fun x hx => hall x (by rw [heq]; exact List.mem_cons_of_mem c hx)) hrest]
      have hfold := natDigitsAux_foldl (m + 2) (m + 1) (by omega) 0
      rw [show natDigitsAux (m + 2) (m + 1) = natRepr (m + 1) from rfl, heq,
        List.foldl_cons] at hfold
      simp only [Nat.zero_mul, Nat.zero_add] at hfold
      rw [hfold]

theorem numEnd_head (rest : List Char) (h : numEnd rest = true) :
    ∀ c, rest.head? = some c → isDigitCh c = false := by
  intro c hc
  cases rest with
  | nil => simp at hc
  | cons d t =>
    simp only [List.head?_cons, Option.some.injEq] at hc
    subst hc
    simp only [numEnd, Bool.not_eq_true', Bool.or_eq_false_iff] at h
    exact h.1.1.1

theorem noFloatTail_of_numEnd (rest : List Char) (h : numEnd rest = true) :
    noFloatTail rest = true := by
  cases rest with
  | nil => rfl
  | cons d t =>
    simp only [numEnd, Bool.not_eq_true', Bool.or_eq_false_iff] at h
    simp [noFloatTail, h.1.1.2, h.1.2, h.2]

theorem parseNum_intRepr (n : Int) (rest : List Char) (h : numEnd rest = true) :
    parseNumVal (intRepr n ++ rest) = some (n, rest) := by
  have hnf := noFloatTail_of_numEnd rest h
  have hhd := numEnd_head rest h
  by_cases hn : n < 0
  · rw [intRepr, if_pos hn]
    rw [show ('-' :: natRepr n.natAbs) ++ rest = '-' :: (natRepr n.natAbs ++ rest) from rfl]
    rw [show parseNumVal ('-' :: (natRepr n.natAbs ++ rest)) =
      (parseNatNum (natRepr n.natAbs ++ rest)).bind (fun p =>
        if noFloatTail p.2 then some (-(p.1 : Int), p.2) else none) from rfl]
    rw [parseNat_natRepr n.natAbs rest hhd, Option.some_bind]
    have hng : -((n.natAbs : Nat) : Int) = n := by omega
    dsimp only
    rw [hnf, if_pos rfl, hng]
  · rw [intRepr, if_neg hn]
    obtain ⟨c, cs, heq, hdig, _, _⟩ := natRepr_shape n.toNat
    rw [parseNumVal.eq_def]
    split
    · rename_i X h2
      rw [heq] at h2
      have : c = '-' := (List.cons.inj h2).1
      subst this
      exact absurd hdig (by decide)
    · rename_i X h2
      rw [parseNat_natRepr n.toNat rest hhd, Option.some_bind]
      have hng : ((n.toNat : Nat) : Int) = n := by omega
      dsimp only
      rw [hnf, if_pos rfl, hng]

theorem parseVal_succ (f : Nat) (cs0 : List Char) :
    parseVal (f + 1) cs0 =
      match skipWs cs0 with
      | 'n' :: 'u' :: 'l' :: 'l' :: rest => some (.null, rest)
      | 't' :: 'r' :: 'u' :: 'e' :: rest => some (.bool true, rest)
      | 'f' :: 'a' :: 'l' :: 's' :: 'e' :: rest => some (.bool false, rest)
      | '"' :: rest => (parseStrBody rest.length rest).map fun p => (.str (String.mk p.1), p.2)
      | '\x7b' :: rest => parseObjBody f rest
      | '[' :: rest => parseArrBody f rest
      | cs => (parseNumVal cs).map fun p => (.num p.1, p.2) := rfl

theorem parseArrBody_succ (f : Nat) (cs : List Char) :
    parseArrBody (f + 1) cs =
      match skipWs cs with
      | ']' :: rest => some (.arr [], rest)
      | _ => (parseElems f cs).map fun p => (.arr p.1, p.2) := rfl

theorem parseElems_succ (f : Nat) (cs : List Char) :
    parseElems (f + 1) cs =
      (parseVal f cs).bind fun p =>
        match skipWs p.2 with
        | ',' :: rest2 => (parseElems f rest2).map fun q => (p.1 :: q.1, q.2)
        | ']' :: rest2 => some ([p.1], rest2)
        | _ => none := rfl

theorem parseObjBody_succ (f : Nat) (cs : List Char) :
    parseObjBody (f + 1) cs =
      match skipWs cs with
      | '\x7d' :: rest => some (.obj [], rest)
      | _ =>
        (parseMembers f cs).map fun p =>
          (.obj (p.1.foldl (fun acc kv => setKey acc kv.1 kv.2) []), p.2) := rfl

theorem parseMembers_succ (f : Nat) (cs : List Char) :
    parseMembers (f + 1) cs =
      match skipWs cs with
      | '"' :: rest =>
        (parseStrBody rest.length rest).bind fun pk =>
          match skipWs pk.2 with
          | ':' :: rest3 =>
            (parseVal f rest3).bind fun pv =>
              match skipWs pv.2 with
              | ',' :: rest5 =>
                (parseMembers f rest5).map fun q =>
                  ((String.mk pk.1, pv.1) :: q.1, q.2)
              | '\x7d' :: rest5 => some ([(String.mk pk.1, pv.1)], rest5)
              | _ => none
          | _ => none
      | _ => none := rfl

theorem parseVal_other (f : Nat) (cs : List Char) (c : Char) (t : List Char)
    (hhd : skipWs cs = c :: t)
    (hn : c ≠ 'n') (ht : c ≠ 't') (hf : c ≠ 'f') (hq : c ≠ '"')
    (hb : c ≠ '\x7b') (hk : c ≠ '[') :
    parseVal (f + 1) cs = (parseNumVal (skipWs cs)).map fun p => (.num p.1, p.2) := by
  rw [parseVal_succ, hhd]
  split
  · rename_i h2; exact absurd ((List.cons.inj h2).1) hn
  · rename_i h2; exact absurd ((List.cons.inj h2).1) ht
  · rename_i h2; exact absurd ((List.cons.inj h2).1) hf
  · rename_i h2; exact absurd ((List.cons.inj h2).1) hq
  · rename_i h2; exact absurd ((List.cons.inj h2).1) hb
  · rename_i h2; exact absurd ((List.cons.inj h2).1) hk
  · rfl

theorem parseElems_ws (f : Nat) (X : List Char) :
    parseElems f (' ' :: X) = parseElems f X := by
  cases f with
  | zero => rfl
  | succ g =>
    rw [parseElems_succ, parseElems_succ, parseVal_ws]

theorem parseMembers_ws (f : Nat) (X : List Char) :
    parseMembers f (' ' :: X) = parseMembers f X := by
  cases f with
  | zero => rfl
  | succ g =>
    rw [parseMembers_succ, parseMembers_succ,
      show skipWs (' ' :: X) = skipWs X from rfl]

theorem isJsonWs_of_digit (c : Char) (h : isDigitCh c = true) : isJsonWs c = false := by
  cases hw : isJsonWs c
  · rfl
  · exfalso
    simp only [isJsonWs, Bool.or_eq_true, decide_eq_true_eq] at hw
    rcases hw with ((h1 | h1) | h1) | h1 <;> subst h1 <;> exact absurd h (by decide)

theorem parseVal_null (f : Nat) (rest : List Char) :
    parseVal (f + 1) ('n' :: 'u' :: 'l' :: 'l' :: rest) = some (.null, rest) := rfl

theorem parseVal_tt (f : Nat) (rest : List Char) :
    parseVal (f + 1) ('t' :: 'r' :: 'u' :: 'e' :: rest) = some (.bool true, rest) := rfl

theorem parseVal_ff (f : Nat) (rest : List Char) :
    parseVal (f + 1) ('f' :: 'a' :: 'l' :: 's' :: 'e' :: rest) = some (.bool false, rest) := rfl

theorem parseVal_quote (f : Nat) (X : List Char) :
    parseVal (f + 1) ('"' :: X) =
      (parseStrBody X.length X).map fun p => (Json.str (String.mk p.1), p.2) := rfl

theorem parseVal_lbrace (f : Nat) (X : List Char) :
    parseVal (f + 1) ('\x7b' :: X) = parseObjBody f X := rfl

theorem parseVal_lbrack (f : Nat) (X : List Char) :
    parseVal (f + 1) ('[' :: X) = parseArrBody f X := rfl

theorem parseArrBody_rb (f : Nat) (rest : List Char) :
    parseArrBody (f + 1) (']' :: rest) = some (.arr [], rest) := rfl

theorem parseObjBody_rb (f : Nat) (rest : List Char) :
    parseObjBody (f + 1) ('\x7d' :: rest) = some (.obj [], rest) := rfl

theorem parseArrBody_ne (g : Nat) (cs : List Char) (c : Char) (t : List Char)
    (h : skipWs cs = c :: t) (hne : c ≠ ']') :
    parseArrBody (g + 1) cs = (parseElems g cs).map fun p => (.arr p.1, p.2) := by
  rw [parseArrBody_succ, h]
  split
  · rename_i h2; exact absurd ((List.cons.inj h2).1) hne
  · rfl

theorem parseObjBody_ne (g : Nat) (cs : List Char) (c : Char) (t : List Char)
    (h : skipWs cs = c :: t) (hne : c ≠ '\x7d') :
    parseObjBody (g + 1) cs =
      (parseMembers g cs).map fun p =>
        (.obj (p.1.foldl (fun acc kv => setKey acc kv.1 kv.2) []), p.2) := by
  rw [parseObjBody_succ, h]
  split
  · rename_i h2; exact absurd ((List.cons.inj h2).1) hne
  · rfl

theorem dumps_shape (v : Json) :
    ∃ c t, jsonDumpsVal v = c :: t ∧ isJsonWs c = false ∧ c ≠ ']' ∧ c ≠ '\x7d' := by
  cases v with
  | null => refine ⟨'n', _, rfl, ?_, ?_, ?_⟩ <;> decide
  | bool b =>
    cases b
    · refine ⟨'f', _, rfl, ?_, ?_, ?_⟩ <;> decide
    · refine ⟨'t', _, rfl, ?_, ?_, ?_⟩ <;> decide
  | num n =>
    by_cases hn : n < 0
    · refine ⟨'-', natRepr n.natAbs, ?_, by decide, by decide, by decide⟩
      show intRepr n = '-' :: natRepr n.natAbs
      rw [intRepr, if_pos hn]
    · obtain ⟨c, cs, heq, hdig, _, _⟩ := natRepr_shape n.toNat
      refine ⟨c, cs, ?_, isJsonWs_of_digit c hdig, ?_, ?_⟩
      · show intRepr n = c :: cs
        rw [intRepr, if_neg hn, heq]
      · intro h; subst h; exact absurd hdig (by decide)
      · intro h; subst h; exact absurd hdig (by decide)
  | str s => refine ⟨'"', _, rfl, ?_, ?_, ?_⟩ <;> decide
  | arr l =>
    cases l
    · refine ⟨'[', _, rfl, ?_, ?_, ?_⟩ <;> decide
    · refine ⟨'[', _, rfl, ?_, ?_, ?_⟩ <;> decide
  | obj m =>
    cases m with
    | nil => refine ⟨'\x7b', _, rfl, ?_, ?_, ?_⟩ <;> decide
    | cons kv rest =>
      obtain ⟨k, v2⟩ := kv
      refine ⟨'\x7b', _, rfl, ?_, ?_, ?_⟩ <;> decide

theorem numEnd_elems (xs : List Json) (rest : List Char) :
    numEnd (jsonDumpsElems xs ++ ']' :: rest) = true := by
  cases xs with
  | nil => rfl
  | cons y ys => rfl

theorem numEnd_members (m : List (String × Json)) (rest : List Char) :
    numEnd (jsonDumpsMembers m ++ '\x7d' :: rest) = true := by
  cases m with
  | nil => rfl
  | cons kv r => obtain ⟨k, v⟩ := kv; rfl

theorem lookupKey_none_forall : ∀ (m : List (String × Json)) (k : String),
    lookupKey m k = none → ∀ kv ∈ m, kv.1 ≠ k := by
  intro m k h kv hkv
  induction m with
  | nil => simp at hkv
  | cons p rest ih =>
    obtain ⟨k2, w⟩ := p
    rw [show lookupKey ((k2, w) :: rest) k =
      (if k2 = k then some w else lookupKey rest k) from rfl] at h
    by_cases he : k2 = k
    · rw [if_pos he] at h; exact absurd h (by simp)
    · rw [if_neg he] at h
      rcases List.mem_cons.mp hkv with h1 | h1
      · subst h1; exact he
      · exact ih h h1

theorem setKey_append_none : ∀ (acc : List (String × Json)) (k : String) (v : Json),
    lookupKey acc k = none → setKey acc k v = acc ++ [(k, v)] := by
  intro acc
  induction acc with
  | nil => intro k v _; rfl
  | cons p rest ih =>
    intro k v h
    obtain ⟨k2, w⟩ := p
    rw [show lookupKey ((k2, w) :: rest) k =
      (if k2 = k then some w else lookupKey rest k) from rfl] at h
    by_cases he : k2 = k
    · rw [if_pos he] at h; exact absurd h (by simp)
    · rw [if_neg he] at h
      rw [show setKey ((k2, w) :: rest) k v =
        (if k2 = k then (k2, v) :: rest else (k2, w) :: setKey rest k v) from rfl,
        if_neg he, ih k v h]
      rfl

theorem lookupKey_append_none (acc : List (String × Json)) (k k2 : String) (v : Json)
    (h1 : lookupKey acc k2 = none) (h2 : k ≠ k2) :
    lookupKey (acc ++ [(k, v)]) k2 = none := by
  induction acc with
  | nil => exact if_neg h2
  | cons p rest ih =>
    obtain ⟨k3, w⟩ := p
    rw [show lookupKey ((k3, w) :: rest) k2 =
      (if k3 = k2 then some w else lookupKey rest k2) from rfl] at h1
    by_cases he : k3 = k2
    · rw [if_pos he] at h1; exact absurd h1 (by simp)
    · rw [if_neg he] at h1
      rw [List.cons_append,
        show lookupKey ((k3, w) :: (rest ++ [(k, v)])) k2 =
          (if k3 = k2 then some w else lookupKey (rest ++ [(k, v)]) k2) from rfl,
        if_neg he]
      exact ih h1

theorem foldl_setKey_acc : ∀ (m acc : List (String × Json)),
    jsonWfMembers m = true →
    (∀ kv ∈ m, lookupKey acc kv.1 = none) →
    m.foldl (fun acc kv => setKey acc kv.1 kv.2) acc = acc ++ m := by
  intro m
  induction m with
  | nil => intro acc _ _; simp
  | cons p rest ih =>
    intro acc hwf hacc
    obtain ⟨k, v⟩ := p
    rw [show jsonWfMembers ((k, v) :: rest) =
      (wfStr k && jsonWf v && !(lookupKey rest k).isSome && jsonWfMembers rest) from rfl] at hwf
    simp only [Bool.and_eq_true, Bool.not_eq_true'] at hwf
    have hkrest : lookupKey rest k = none := Option.not_isSome_iff_eq_none.mp (by rw [hwf.1.2]; exact Bool.false_ne_true)
    have hwfrest : jsonWfMembers rest = true := hwf.2
    rw [List.foldl_cons]
    rw [setKey_append_none acc k v (hacc (k, v) (List.mem_cons_self _ _))]
    rw [ih (acc ++ [(k, v)]) hwfrest ?hnext]
    · simp
    case hnext =>
      intro kv hkv
      exact lookupKey_append_none acc k kv.1 v
        (hacc kv (List.mem_cons_of_mem _ hkv))
        (fun he => (lookupKey_none_forall rest k hkrest kv hkv) he.symm)

theorem foldl_setKey_nodup (m : List (String × Json)) (h : jsonWfMembers m = true) :
    m.foldl (fun acc kv => setKey acc kv.1 kv.2) [] = m := by
  have := foldl_setKey_acc m [] h (fun kv _ => rfl)
  simpa using this

theorem parseMembers_quote (f : Nat) (X : List Char) :
    parseMembers (f + 1) ('"' :: X) =
      (parseStrBody X.length X).bind fun pk =>
        match skipWs pk.2 with
        | ':' :: rest3 =>
          (parseVal f rest3).bind fun pv =>
            match skipWs pv.2 with
            | ',' :: rest5 =>
              (parseMembers f rest5).map fun q => ((String.mk pk.1, pv.1) :: q.1, q.2)
            | '\x7d' :: rest5 => some ([(String.mk pk.1, pv.1)], rest5)
            | _ => none
        | _ => none := rfl


theorem parse_dumps_ind : ∀ (fuel : Nat),
    (∀ v rest, jsonWf v = true → numEnd rest = true →
      3 * (jsonDumpsVal v).length < fuel →
      parseVal fuel (jsonDumpsVal v ++ rest) = some (v, rest)) ∧
    (∀ x xs rest, jsonWf x = true → jsonWfList xs = true →
      3 * ((jsonDumpsVal x).length + (jsonDumpsElems xs).length) + 2 < fuel →
      parseElems fuel (jsonDumpsVal x ++ (jsonDumpsElems xs ++ ']' :: rest)) =
        some (x :: xs, rest)) ∧
    (∀ k v m rest, wfStr k = true → jsonWf v = true → jsonWfMembers m = true →
      3 * ((escStr k).length + (jsonDumpsVal v).length +
        (jsonDumpsMembers m).length) + 2 < fuel →
      parseMembers fuel (escStr k ++ (':' :: ' ' :: (jsonDumpsVal v ++
        (jsonDumpsMembers m ++ '\x7d' :: rest)))) = some ((k, v) :: m, rest)) := by
  intro fuel
  induction fuel using Nat.strong_induction_on with
  | _ fuel ih =>
  refine ⟨?_, ?_, ?_⟩
  · intro v rest hwf hnd hfuel
    cases fuel with
    | zero => omega
    | succ f =>
      cases v with
      | null => exact parseVal_null f rest
      | bool b =>
        cases b with
        | true => exact parseVal_tt f rest
        | false => exact parseVal_ff f rest
      | num n =>
        by_cases hn : n < 0
        · have hsh : jsonDumpsVal (Json.num n) = '-' :: natRepr n.natAbs := by
            show intRepr n = _
            rw [intRepr, if_pos hn]
          have hra : jsonDumpsVal (Json.num n) ++ rest = '-' :: (natRepr n.natAbs ++ rest) := by
            rw [hsh, List.cons_append]
          have hskip : skipWs (jsonDumpsVal (Json.num n) ++ rest) =
              '-' :: (natRepr n.natAbs ++ rest) := by
            rw [hra]
            exact skipWs_nonws '-' _ (by decide)
          rw [parseVal_other f _ '-' _ hskip (by decide) (by decide) (by decide)
            (by decide) (by decide) (by decide), hskip, ← hra,
            show jsonDumpsVal (Json.num n) = intRepr n from rfl,
            parseNum_intRepr n rest hnd]
          rfl
        · obtain ⟨c, cs, heq, hdig, _, _⟩ := natRepr_shape n.toNat
          have hsh : jsonDumpsVal (Json.num n) = c :: cs := by
            show intRepr n = _
            rw [intRepr, if_neg hn, heq]
          have hra : jsonDumpsVal (Json.num n) ++ rest = c :: (cs ++ rest) := by
            rw [hsh, List.cons_append]
          have hskip : skipWs (jsonDumpsVal (Json.num n) ++ rest) = c :: (cs ++ rest) := by
            rw [hra]
            exact skipWs_nonws c _ (isJsonWs_of_digit c hdig)
          rw [parseVal_other f _ c _ hskip
            (fun h => by subst h; exact absurd hdig (by decide))
            (fun h => by subst h; exact absurd hdig (by decide))
            (fun h => by subst h; exact absurd hdig (by decide))
            (fun h => by subst h; exact absurd hdig (by decide))
            (fun h => by subst h; exact absurd hdig (by decide))
            (fun h => by subst h; exact absurd hdig (by decide)), hskip, ← hra,
            show jsonDumpsVal (Json.num n) = intRepr n from rfl,
            parseNum_intRepr n rest hnd]
          rfl
      | str s =>
        have hwfs : ∀ c ∈ s.data, wfChar c = true := by
          have h3 : s.data.all wfChar = true := hwf
          exact fun c hc => List.all_eq_true.mp h3 c hc
        have hra : jsonDumpsVal (Json.str s) ++ rest =
            '"' :: s.data.foldr (fun c acc => escChar c ++ acc) ('"' :: rest) := by
          show escStr s ++ rest = _
          rw [escStr, List.cons_append, foldrEsc_append]
          rfl
        rw [hra, parseVal_quote,
          parseStrBody_esc s.data rest _ hwfs (le_refl _)]
        rfl
      | arr l =>
        cases l with
        | nil =>
          have hl2 : (jsonDumpsVal (Json.arr [])).length = 2 := rfl
          have hra : jsonDumpsVal (Json.arr []) ++ rest = '[' :: (']' :: rest) := rfl
          rw [hra, parseVal_lbrack]
          cases f with
          | zero => omega
          | succ g => exact parseArrBody_rb g rest
        | cons x xs =>
          have hwx : jsonWf x = true ∧ jsonWfList xs = true := by
            have h2 : (jsonWf x && jsonWfList xs) = true := hwf
            simpa [Bool.and_eq_true] using h2
          have hlen : (jsonDumpsVal (Json.arr (x :: xs))).length =
              (jsonDumpsVal x).length + (jsonDumpsElems xs).length + 2 := by
            show ('[' :: (jsonDumpsVal x ++ jsonDumpsElems xs) ++ [']']).length = _
            simp [List.length_append]
            try omega
          have hra : jsonDumpsVal (Json.arr (x :: xs)) ++ rest =
              '[' :: (jsonDumpsVal x ++ (jsonDumpsElems xs ++ ']' :: rest)) := by
            show ('[' :: (jsonDumpsVal x ++ jsonDumpsElems xs) ++ [']']) ++ rest = _
            simp [List.cons_append, List.append_assoc]
          rw [hra, parseVal_lbrack]
          cases f with
          | zero => omega
          | succ g =>
            obtain ⟨c, t, hct, hcw, hcrb, _⟩ := dumps_shape x
            have hskip : skipWs (jsonDumpsVal x ++ (jsonDumpsElems xs ++ ']' :: rest)) =
                c :: (t ++ (jsonDumpsElems xs ++ ']' :: rest)) := by
              rw [hct, List.cons_append]
              exact skipWs_nonws c _ hcw
            rw [parseArrBody_ne g _ c _ hskip hcrb,
              (ih g (by omega)).2.1 x xs rest hwx.1 hwx.2 (by omega)]
            rfl
      | obj m =>
        cases m with
        | nil =>
          have hl2 : (jsonDumpsVal (Json.obj [])).length = 2 := rfl
          have hra : jsonDumpsVal (Json.obj []) ++ rest = '\x7b' :: ('\x7d' :: rest) := rfl
          rw [hra, parseVal_lbrace]
          cases f with
          | zero => omega
          | succ g => exact parseObjBody_rb g rest
        | cons kv m2 =>
          obtain ⟨k, v2⟩ := kv
          have h2 : (wfStr k && jsonWf v2 && !(lookupKey m2 k).isSome &&
              jsonWfMembers m2) = true := hwf
          simp only [Bool.and_eq_true] at h2
          obtain ⟨⟨⟨hk1, hv1⟩, hnk1⟩, hm1⟩ := h2
          have hlen : (jsonDumpsVal (Json.obj ((k, v2) :: m2))).length =
              (escStr k).length + (jsonDumpsVal v2).length +
                (jsonDumpsMembers m2).length + 4 := by
            show ('\x7b' :: (escStr k ++ ':' :: ' ' :: jsonDumpsVal v2 ++
              jsonDumpsMembers m2) ++ ['\x7d']).length = _
            simp [List.length_append]
            try omega
          have hra : jsonDumpsVal (Json.obj ((k, v2) :: m2)) ++ rest =
              '\x7b' :: (escStr k ++ (':' :: ' ' :: (jsonDumpsVal v2 ++
                (jsonDumpsMembers m2 ++ '\x7d' :: rest)))) := by
            show ('\x7b' :: (escStr k ++ ':' :: ' ' :: jsonDumpsVal v2 ++
              jsonDumpsMembers m2) ++ ['\x7d']) ++ rest = _
            simp [List.cons_append, List.append_assoc]
          rw [hra, parseVal_lbrace]
          cases f with
          | zero => omega
          | succ g =>
            have hskip : skipWs (escStr k ++ (':' :: ' ' :: (jsonDumpsVal v2 ++
                (jsonDumpsMembers m2 ++ '\x7d' :: rest)))) =
                '"' :: (k.data.foldr (fun c acc => escChar c ++ acc)
                  ('"' :: (':' :: ' ' :: (jsonDumpsVal v2 ++
                    (jsonDumpsMembers m2 ++ '\x7d' :: rest))))) := by
              rw [escStr, List.cons_append, foldrEsc_append]
              rfl
            rw [parseObjBody_ne g _ '"' _ hskip (by decide)]
            rw [(ih g (by omega)).2.2 k v2 m2 rest hk1 hv1 hm1 (by omega)]
            show some (Json.obj (((k, v2) :: m2).foldl
              (fun acc kv => setKey acc kv.1 kv.2) []), rest) = _
            rw [foldl_setKey_nodup _ (show jsonWfMembers ((k, v2) :: m2) = true from hwf)]
  · intro x xs rest hwx hwxs hfuel
    cases fuel with
    | zero => omega
    | succ f =>
      rw [parseElems_succ,
        (ih f (by omega)).1 x (jsonDumpsElems xs ++ ']' :: rest) hwx
          (numEnd_elems xs rest) (by omega),
        Option.some_bind]
      cases xs with
      | nil => rfl
      | cons y ys =>
        have hys : jsonWf y = true ∧ jsonWfList ys = true := by
          have h2 : (jsonWf y && jsonWfList ys) = true := hwxs
          simpa [Bool.and_eq_true] using h2
        have hlen : (jsonDumpsElems (y :: ys)).length =
            (jsonDumpsVal y).length + (jsonDumpsElems ys).length + 2 := by
          show (',' :: ' ' :: jsonDumpsVal y ++ jsonDumpsElems ys).length = _
          simp [List.length_append]
          try omega
        have hrw : jsonDumpsElems (y :: ys) ++ ']' :: rest =
            ',' :: (' ' :: (jsonDumpsVal y ++ (jsonDumpsElems ys ++ ']' :: rest))) := by
          show (',' :: ' ' :: jsonDumpsVal y ++ jsonDumpsElems ys) ++ ']' :: rest = _
          simp [List.cons_append, List.append_assoc]
        rw [hrw]
        show (parseElems f (' ' :: (jsonDumpsVal y ++ (jsonDumpsElems ys ++ ']' :: rest)))).map
          (fun q => (x :: q.1, q.2)) = some (x :: y :: ys, rest)
        rw [parseElems_ws,
          (ih f (by omega)).2.1 y ys rest hys.1 hys.2 (by omega)]
        rfl
  · intro k v m rest hk hv hm hfuel
    cases fuel with
    | zero => omega
    | succ f =>
      have hkall : ∀ c ∈ k.data, wfChar c = true := by
        have h3 : k.data.all wfChar = true := hk
        exact fun c hc => List.all_eq_true.mp h3 c hc
      have hra : escStr k ++ (':' :: ' ' :: (jsonDumpsVal v ++
          (jsonDumpsMembers m ++ '\x7d' :: rest))) =
          '"' :: (k.data.foldr (fun c acc => escChar c ++ acc)
            ('"' :: (':' :: ' ' :: (jsonDumpsVal v ++
              (jsonDumpsMembers m ++ '\x7d' :: rest))))) := by
        rw [escStr, List.cons_append, foldrEsc_append]
        rfl
      rw [hra, parseMembers_quote,
        parseStrBody_esc k.data _ _ hkall (le_refl _), Option.some_bind]
      show (parseVal f (' ' :: (jsonDumpsVal v ++ (jsonDumpsMembers m ++ '\x7d' :: rest)))).bind
        (fun pv =>
          match skipWs pv.2 with
          | ',' :: rest5 =>
            (parseMembers f rest5).map fun q => ((String.mk k.data, pv.1) :: q.1, q.2)
          | '\x7d' :: rest5 => some ([(String.mk k.data, pv.1)], rest5)
          | _ => none) = some ((k, v) :: m, rest)
      rw [parseVal_ws,
        (ih f (by omega)).1 v (jsonDumpsMembers m ++ '\x7d' :: rest) hv
          (numEnd_members m rest) (by omega),
        Option.some_bind]
      cases m with
      | nil => rfl
      | cons kv2 m2 =>
        obtain ⟨k2, v2⟩ := kv2
        have hwm2 : wfStr k2 = true ∧ jsonWf v2 = true ∧ jsonWfMembers m2 = true := by
          have h2 : (wfStr k2 && jsonWf v2 && !(lookupKey m2 k2).isSome &&
              jsonWfMembers m2) = true := hm
          simp only [Bool.and_eq_true] at h2
          exact ⟨h2.1.1.1, h2.1.1.2, h2.2⟩
        have hlen : (jsonDumpsMembers ((k2, v2) :: m2)).length =
            (escStr k2).length + (jsonDumpsVal v2).length +
              (jsonDumpsMembers m2).length + 4 := by
          show (',' :: ' ' :: escStr k2 ++ ':' :: ' ' :: jsonDumpsVal v2 ++
            jsonDumpsMembers m2).length = _
          simp [List.length_append]
          try omega
        have hrw : jsonDumpsMembers ((k2, v2) :: m2) ++ '\x7d' :: rest =
            ',' :: (' ' :: (escStr k2 ++ (':' :: ' ' :: (jsonDumpsVal v2 ++
              (jsonDumpsMembers m2 ++ '\x7d' :: rest))))) := by
          show (',' :: ' ' :: escStr k2 ++ ':' :: ' ' :: jsonDumpsVal v2 ++
            jsonDumpsMembers m2) ++ '\x7d' :: rest = _
          simp [List.cons_append, List.append_assoc]
        rw [hrw]
        show (parseMembers f (' ' :: (escStr k2 ++ (':' :: ' ' :: (jsonDumpsVal v2 ++
          (jsonDumpsMembers m2 ++ '\x7d' :: rest)))))).map
            (fun q => ((String.mk k.data, v) :: q.1, q.2)) = some ((k, v) :: (k2, v2) :: m2, rest)
        rw [parseMembers_ws,
          (ih f (by omega)).2.2 k2 v2 m2 rest hwm2.1 hwm2.2.1 hwm2.2.2 (by omega)]
        rfl

theorem jsonLoads_dumps (v : Json) (h : jsonWf v = true) :
    jsonLoads (jsonDumps v) = some v := by
  have h1 := (parse_dumps_ind (3 * (jsonDumpsVal v).length + 3)).1 v [] h rfl (by omega)
  rw [List.append_nil] at h1
  unfold jsonLoads jsonDumps
  rw [show (String.mk (jsonDumpsVal v)).data = jsonDumpsVal v from rfl, h1]
  rfl

theorem stripChars_id (c : Char) (mid : List Char) (d : Char)
    (hc : isPyWs c = false) (hd : isPyWs d = false) :
    stripChars ((c :: mid) ++ [d]) = (c :: mid) ++ [d] := by
  unfold stripChars
  rw [show ((c :: mid) ++ [d]) = c :: (mid ++ [d]) from rfl]
  simp only [List.dropWhile_cons, hc, Bool.false_eq_true, if_false]
  rw [show (c :: (mid ++ [d])).reverse = d :: (mid.reverse ++ [c]) from by simp]
  simp only [List.dropWhile_cons, hd, Bool.false_eq_true, if_false]
  rw [show (d :: (mid.reverse ++ [c])).reverse = c :: (mid ++ [d]) from by simp]

theorem pyStrip_dumps_obj (kvs : List (String × Json)) :
    pyStrip (jsonDumps (Json.obj kvs)) = jsonDumps (Json.obj kvs) := by
  cases kvs with
  | nil => rfl
  | cons kv m =>
    obtain ⟨k, v⟩ := kv
    show String.mk (stripChars (('\x7b' :: (escStr k ++ ':' :: ' ' :: jsonDumpsVal v ++
      jsonDumpsMembers m)) ++ ['\x7d'])) = _
    rw [stripChars_id '\x7b' _ '\x7d' (by decide) (by decide)]
    rfl

theorem dumps_obj_no_tick_start (kvs : List (String × Json)) :
    strStartsWith (jsonDumps (Json.obj kvs)) "```" = false := by
  cases kvs with
  | nil => rfl
  | cons kv m => obtain ⟨k, v⟩ := kv; rfl

theorem stripFences_id (t : String)
    (h1 : containsSubStr t "```json" = false)
    (h2 : strStartsWith t "```" = false) :
    stripFencesResponse t = t := by
  unfold stripFencesResponse
  rw [h1, h2]
  rfl

theorem score_tier1_obj_str (rs : String) (ms : List (String × Json)) :
    ∃ t1, score_tier1_structural
        (some (Json.obj [("readme", Json.str rs), ("metadata", Json.obj ms)])) =
      .ok t1 ∧ 5 ≤ t1.1 := by
  unfold score_tier1_structural
  dsimp only
  rw [show getD [("readme", Json.str rs), ("metadata", Json.obj ms)] "readme"
    (Json.str "") = Json.str rs from rfl]
  by_cases ht : Json.truthy (Json.str rs) = true
  · rw [if_pos ht]
    refine ⟨_, rfl, ?_⟩
    have ha : (0 : Int) ≤ (if decide (rs.length > 100) = true then 5 else 0) := by
      split <;> omega
    have hb : (0 : Int) ≤ (if (decide (getD ms "@context" Json.null =
        Json.str "https://schema.org") &&
        (getD ms "@type" Json.null).truthy &&
        (getD ms "name" Json.null).truthy) = true then 5 else 0) := by
      split <;> omega
    omega
  · rw [if_neg ht]
    refine ⟨_, rfl, ?_⟩
    have hb : (0 : Int) ≤ (if (decide (getD ms "@context" Json.null =
        Json.str "https://schema.org") &&
        (getD ms "@type" Json.null).truthy &&
        (getD ms "name" Json.null).truthy) = true then 5 else 0) := by
      split <;> omega
    omega

theorem tiersRest_obj_str (rs : String) (ms : List (String × Json))
    (tc : Option TestCase) (j3 j4 : Option String) :
    ∃ r, tiersRest (Json.obj [("readme", Json.str rs), ("metadata", Json.obj ms)])
      tc j3 j4 = Except.ok r := by
  unfold tiersRest
  dsimp only
  rw [show getD [("readme", Json.str rs), ("metadata", Json.obj ms)] "readme"
    (Json.str "") = Json.str rs from rfl]
  by_cases ht : Json.truthy (Json.str rs) = true
  · rw [if_pos ht]
    exact ⟨_, rfl⟩
  · rw [if_neg ht]
    exact ⟨_, rfl⟩

theorem evalGo_succ (tc : TestCase) (fs : FileSys) (j3 j4 : Option String)
    (oracle : Nat → Reply) (maxSteps fuel step : Nat) (msg : String) :
    evalGo tc fs j3 j4 oracle maxSteps (fuel + 1) step msg =
      match oracle step with
      | .timeoutErr =>
        .ok (failRecord tc ("Timeout on step " ++ toString (step + 1))
          (some (step + 1)))
      | .commErr e =>
        .ok (failRecord tc ("Communication error: " ++
          String.mk (e.data.take 100)) (some (step + 1)))
      | .badResponse => .ok (failRecord tc "Unexpected response from white agent" none)
      | .badResult => .ok (failRecord tc "Unexpected result from white agent" none)
      | .noText => .ok (failRecord tc "Empty response from white agent" none)
      | .ok text =>
        match decodeTurn text with
        | .noAction => .ok (failRecord tc "Could not parse action from response" none)
        | .parseFail => .ok (failRecord tc "Could not parse action: invalid JSON" none)
        | .crash e => .error e
        | .act name kwargs =>
          if name = Json.str RESPOND_ACTION_NAME then
            match kwargs with
            | .obj kvs =>
              match score_documentation (buildFinalResponse kvs) (some tc) j3 j4 with
              | .error e => .error e
              | .ok sr =>
                .ok ⟨tc.name, none, some (step + 1), some sr,
                     sr.total_score, sr.max_score⟩
            | _ => .error "AttributeError"
          else
            match executeTool name kwargs tc fs with
            | .error e => .error e
            | .ok toolResult =>
              evalGo tc fs j3 j4 oracle maxSteps fuel (step + 1)
                (toolMsg name toolResult) := rfl

/-- C2 counterexample: the reply `<json>\x7b"foo": 1\x7d</json>` parses to a
JSON object with no `name` field, yet the evaluation does not end in a
0-scored failure record: the turn is treated as a call to the unknown tool
named by the empty string, the conversation continues, and the next turn's
submission is scored normally (here with total 5). -/
theorem c2_counterexample :
    decodeTurn "<json>\x7b\"foo\": 1\x7d</json>" =
      .act (Json.str "") (Json.obj []) ∧
    evaluate_test_case c4Tc c4Fs none none c2wOracle 2 =
      .ok ⟨"t", none, some 2,
        some ⟨5, 0, 0, 0, 5, 100, false, ⟨true, false, 0, false⟩, none, none, none⟩,
        5, 100⟩ := ⟨by decide, by decide⟩

/-- C2 (amended): a reply whose extracted JSON parses to an object lacking
`name` decodes to an action named by the empty string; `execute_tool`
returns the string `Error: Unknown tool \x27\x27` (no exception), and the loop
continues with the next step rather than terminating the test case. -/
theorem c2_missing_name_continues (tc : TestCase) (fs : FileSys)
    (j3 j4 : Option String) (oracle : Nat → Reply) (maxSteps fuel step : Nat)
    (msg t s : String) (kvs : List (String × Json))
    (ht : oracle step = .ok t)
    (hex : extractActionJson t = some s)
    (hld : jsonLoads s = some (.obj kvs))
    (hnm : lookupKey kvs "name" = none) :
    decodeTurn t = .act (Json.str "") (getD kvs "kwargs" (Json.obj [])) ∧
    executeTool (Json.str "") (getD kvs "kwargs" (Json.obj [])) tc fs =
      .ok "Error: Unknown tool \x27\x27" ∧
    evalGo tc fs j3 j4 oracle maxSteps (fuel + 1) step msg =
      evalGo tc fs j3 j4 oracle maxSteps fuel (step + 1)
        (toolMsg (Json.str "") "Error: Unknown tool \x27\x27") := by
  have hdec : decodeTurn t = .act (Json.str "") (getD kvs "kwargs" (Json.obj [])) := by
    unfold decodeTurn
    rw [hex]
    show decodeActionJson s = _
    unfold decodeActionJson
    rw [hld]
    dsimp only
    rw [show getD kvs "name" (Json.str "") = (lookupKey kvs "name").getD (Json.str "") from rfl,
      hnm]
    rfl
  have hexe : executeTool (Json.str "") (getD kvs "kwargs" (Json.obj [])) tc fs =
      .ok "Error: Unknown tool \x27\x27" := by
    unfold executeTool
    rw [if_neg (by decide), if_neg (by decide)]
    rfl
  refine ⟨hdec, hexe, ?_⟩
  rw [evalGo_succ, ht]
  dsimp only
  rw [hdec]
  dsimp only
  rw [if_neg (show ¬ (Json.str "" = Json.str RESPOND_ACTION_NAME) from by decide), hexe]

theorem c2_missing_name_continues_witness :
    (c2wOracle 0 = .ok "<json>\x7b\"foo\": 1\x7d</json>") ∧
    (extractActionJson "<json>\x7b\"foo\": 1\x7d</json>" = some "\x7b\"foo\": 1\x7d") ∧
    (jsonLoads "\x7b\"foo\": 1\x7d" = some (.obj [("foo", Json.num 1)])) ∧
    (lookupKey [("foo", Json.num 1)] "name" = none) ∧
    (decodeTurn "<json>\x7b\"foo\": 1\x7d</json>" =
      .act (Json.str "") (getD [("foo", Json.num 1)] "kwargs" (Json.obj [])) ∧
     executeTool (Json.str "")
       (getD [("foo", Json.num 1)] "kwargs" (Json.obj [])) c4Tc c4Fs =
       .ok "Error: Unknown tool \x27\x27" ∧
     evalGo c4Tc c4Fs none none c2wOracle 2 1 0 "m" =
       evalGo c4Tc c4Fs none none c2wOracle 2 0 1
         (toolMsg (Json.str "") "Error: Unknown tool \x27\x27")) :=
  ⟨rfl, by decide, by decide, by decide,
   c2_missing_name_continues c4Tc c4Fs none none c2wOracle 2 0 0 "m"
     "<json>\x7b\"foo\": 1\x7d</json>" "\x7b\"foo\": 1\x7d" [("foo", Json.num 1)]
     rfl (by decide) (by decide) (by decide)⟩

theorem evalGo_exhaust (tc : TestCase) (fs : FileSys) (j3 j4 : Option String)
    (oracle : Nat → Reply) (maxSteps : Nat) :
    ∀ fuel step msg,
      (∀ i, step ≤ i → i < step + fuel →
        ∃ t n k s, oracle i = .ok t ∧ decodeTurn t = .act n k ∧
          n ≠ Json.str "respond" ∧ executeTool n k tc fs = .ok s) →
      evalGo tc fs j3 j4 oracle maxSteps fuel step msg =
        .ok ⟨tc.name, some "Max steps reached without final documentation",
             some maxSteps, none, 0, 100⟩ := by
  intro fuel
  induction fuel with
  | zero => intro step msg _; rfl
  | succ f ih =>
    intro step msg h
    obtain ⟨t, n, k, s, ht, hdec, hnr, hexe⟩ := h step (le_refl _) (by omega)
    rw [evalGo_succ, ht]
    dsimp only
    rw [hdec]
    dsimp only
    rw [if_neg (show ¬ (n = Json.str RESPOND_ACTION_NAME) from fun hq => hnr hq), hexe]
    dsimp only
    exact ih (step + 1) _ (fun i h1 h2 => h i (by omega) (by omega))

/-- C6: whenever every one of the first `max_steps` oracle turns is a
well-formed non-`respond` tool call whose execution succeeds, the
evaluation terminates with the step-exhaustion failure record: error
`Max steps reached without final documentation`, steps_taken = max_steps,
total_score 0, max_score 100 (and no transport-error diagnostic). -/
theorem c6_step_exhaustion (tc : TestCase) (fs : FileSys) (j3 j4 : Option String)
    (oracle : Nat → Reply) (maxSteps : Nat)
    (h : ∀ i, i < maxSteps → ∃ t n k s, oracle i = .ok t ∧
      decodeTurn t = .act n k ∧ n ≠ Json.str "respond" ∧
      executeTool n k tc fs = .ok s) :
    evaluate_test_case tc fs j3 j4 oracle maxSteps =
      .ok ⟨tc.name, some "Max steps reached without final documentation",
           some maxSteps, none, 0, 100⟩ :=
  evalGo_exhaust tc fs j3 j4 oracle maxSteps maxSteps 0 (task_description tc)
    (fun i h1 h2 => h i (by omega))

theorem c6_step_exhaustion_witness :
    (∀ i, i < 15 → ∃ t n k s, c6wOracle i = .ok t ∧
      decodeTurn t = .act n k ∧ n ≠ Json.str "respond" ∧
      executeTool n k c4Tc c4Fs = .ok s) ∧
    evaluate_test_case c4Tc c4Fs none none c6wOracle 15 =
      .ok ⟨"t", some "Max steps reached without final documentation",
           some 15, none, 0, 100⟩ := by
  have hyp : ∀ i, i < 15 → ∃ t n k s, c6wOracle i = .ok t ∧
      decodeTurn t = .act n k ∧ n ≠ Json.str "respond" ∧
      executeTool n k c4Tc c4Fs = .ok s :=
    fun i _ =>
      ⟨"<json>\x7b\"name\": \"list_directory\", \"kwargs\": \x7b\x7d\x7d</json>",
       Json.str "list_directory", Json.obj [], "[\n  \"main.py\"\n]",
       rfl, by decide, by decide, by decide⟩
  exact ⟨hyp, c6_step_exhaustion c4Tc c4Fs none none c6wOracle 15 hyp⟩

/-- C10 counterexample: a submission whose readme contains a markdown
code fence (` ```json `) reaches scoring, but the fence-stripping
preprocessing mangles the serialized payload, the JSON parse fails, and
the terminal outcome has total_score 0 (not at least 5). -/
theorem c10_counterexample :
    evaluate_test_case c4Tc c4Fs none none c10wOracle 1 =
      .ok ⟨"t", none, some 1,
        some ⟨0, 0, 0, 0, 0, 100, true, ⟨false, false, 0, false⟩, none, none, none⟩,
        0, 100⟩ ∧
    ¬ (5 : Int) ≤ (0 : Int) := ⟨by decide, by decide⟩

/-- C10 (amended): for a submission whose readme value is a string and
metadata a map (including the defaults when absent), if the serialized
payload contains no ` ```json ` fence marker (and, in this model, the
payload is printable ASCII), the Scoring Engine's JSON parse succeeds,
Tier 1's valid-JSON 5 points are awarded, and total_score is at least 5. -/
theorem c10_fence_free_submission_scores (kwargs : List (String × Json))
    (tcOpt : Option TestCase) (j3 j4 : Option String) (rs : String)
    (ms : List (String × Json))
    (hrd : getD kwargs "readme" (Json.str "") = Json.str rs)
    (hmd : getD kwargs "metadata" (Json.obj []) = Json.obj ms)
    (hwfs : wfStr rs = true) (hwfm : jsonWfMembers ms = true)
    (hfence : containsSubStr (buildFinalResponse kwargs) "```json" = false) :
    ∃ r, score_documentation (buildFinalResponse kwargs) tcOpt j3 j4 =
        Except.ok r ∧
      r.parse_error = false ∧ 5 ≤ r.tier1_structural ∧ 5 ≤ r.total_score := by
  have hbuild : buildFinalResponse kwargs =
      jsonDumps (Json.obj [("readme", Json.str rs), ("metadata", Json.obj ms)]) := by
    unfold buildFinalResponse
    rw [hrd, hmd]
  have hwfobj : jsonWf (Json.obj [("readme", Json.str rs),
      ("metadata", Json.obj ms)]) = true := by
    show (wfStr "readme" && jsonWf (Json.str rs) &&
      !(lookupKey [("metadata", Json.obj ms)] "readme").isSome &&
      jsonWfMembers [("metadata", Json.obj ms)]) = true
    rw [show jsonWf (Json.str rs) = wfStr rs from rfl, hwfs,
      show jsonWfMembers [("metadata", Json.obj ms)] =
        (wfStr "metadata" && jsonWf (Json.obj ms) &&
          !(lookupKey ([] : List (String × Json)) "metadata").isSome &&
          jsonWfMembers ([] : List (String × Json))) from rfl,
      show jsonWf (Json.obj ms) = jsonWfMembers ms from rfl, hwfm]
    rfl
  have hload := jsonLoads_dumps _ hwfobj
  have hfence2 : containsSubStr (jsonDumps (Json.obj [("readme", Json.str rs),
      ("metadata", Json.obj ms)])) "```json" = false := by
    rw [← hbuild]
    exact hfence
  have hsf : stripFencesResponse (pyStrip (jsonDumps (Json.obj
      [("readme", Json.str rs), ("metadata", Json.obj ms)]))) =
      jsonDumps (Json.obj [("readme", Json.str rs), ("metadata", Json.obj ms)]) := by
    rw [pyStrip_dumps_obj]
    exact stripFences_id _ hfence2 (dumps_obj_no_tick_start _)
  obtain ⟨t1, ht1, ht1b⟩ := score_tier1_obj_str rs ms
  obtain ⟨rr, hrr⟩ := tiersRest_obj_str rs ms tcOpt j3 j4
  have hbounds := tiersRest_bounds hrr
  rw [hbuild]
  unfold score_documentation
  dsimp only
  rw [hsf, hload]
  rw [show nullToNone (some (Json.obj [("readme", Json.str rs),
    ("metadata", Json.obj ms)])) = some (Json.obj [("readme", Json.str rs),
    ("metadata", Json.obj ms)]) from rfl]
  rw [ht1]
  dsimp only
  rw [if_pos (show Json.truthy (Json.obj [("readme", Json.str rs),
    ("metadata", Json.obj ms)]) = true from rfl)]
  rw [hrr]
  refine ⟨_, rfl, rfl, ht1b, ?_⟩
  show 5 ≤ t1.1 + rr.1.1 + rr.2.1.1 + rr.2.2.1
  have h1 := hbounds.1.1
  have h2 := hbounds.2.1.1
  have h3 := hbounds.2.2.1
  omega

theorem c10_fence_free_submission_scores_witness :
    (getD c10wKwargs "readme" (Json.str "") = Json.str "Install and use") ∧
    (getD c10wKwargs "metadata" (Json.obj []) = Json.obj []) ∧
    (wfStr "Install and use" = true) ∧
    (jsonWfMembers ([] : List (String × Json)) = true) ∧
    (containsSubStr (buildFinalResponse c10wKwargs) "```json" = false) ∧
    (∃ r, score_documentation (buildFinalResponse c10wKwargs) none none none =
        Except.ok r ∧
      r.parse_error = false ∧ 5 ≤ r.tier1_structural ∧ 5 ≤ r.total_score) :=
  ⟨by decide, by decide, by decide, by decide, by decide,
   c10_fence_free_submission_scores c10wKwargs none none none "Install and use" []
     (by decide) (by decide) (by decide) (by decide) (by decide)⟩

end AeoBench
